import Mathlib

/-!
Verification development for the injective-indexer pipeline.

The Rust sources are shallowly embedded: pure functions become Lean
functions, stateful handlers become explicit state-passing functions, and
trajectories are folds over input lists.  Machine floating point (f64) is
idealized as exact rational arithmetic (ℚ); decimal strings are parsed by
an exact decimal parser mirroring the successful cases of Rust string to
f64 conversion.  Fallible steps return Option.
-/

namespace Compute

/-- Embedding of compute/mod.rs calculate_liquidation_price.
f64 arithmetic is idealized as exact rational arithmetic; the guard and
the branch structure follow the source line by line. -/
def calculate_liquidation_price (is_long : Bool) (entry_price margin quantity
    maintenance_margin_ratio market_cumulative_funding
    position_cumulative_funding_entry : ℚ) : ℚ :=
  if quantity ≤ 0 ∨ entry_price ≤ 0 ∨ maintenance_margin_ratio ≤ 0 then 0
  else
    let unrealized_funding_payment :=
      quantity * (market_cumulative_funding - position_cumulative_funding_entry)
    let adjusted_margin :=
      if is_long then margin - unrealized_funding_payment
      else margin + unrealized_funding_payment
    let unit_margin := adjusted_margin / quantity
    if is_long then
      (entry_price - unit_margin) / (1 - maintenance_margin_ratio)
    else
      (entry_price + unit_margin) / (1 + maintenance_margin_ratio)

/-- Embedding of compute/mod.rs is_liquidatable: a long is liquidatable when
mark_price ≤ liquidation_price, a short when mark_price ≥ liquidation_price. -/
def is_liquidatable (is_long : Bool) (liquidation_price mark_price : ℚ) : Bool :=
  if is_long then decide (mark_price ≤ liquidation_price)
  else decide (mark_price ≥ liquidation_price)

end Compute

namespace Grpc

/-! Data model of the streaming service (grpc/src/models.rs).  The record
structs keep the source field names and declaration order; decimal fields
are lossless strings exactly as in the source. -/

/-- models.rs MessageType (closed tag set, declaration order preserved). -/
inductive MessageType where
  | StreamBankBalance
  | StreamSubaccountDeposit
  | StreamPosition
  | StreamSpotOrderbook
  | StreamDerivativeOrderbook
  | StreamOraclePrice
  | SpotTrade
  | DerivativeTrade
  | SpotOrder
  | DerivativeOrder
  | DerivativeMarket
  | ExchangeBalance
  | ExchangePosition
  | DerivativeL3Orderbook
deriving DecidableEq, Repr

structure CoinPayload where
  denom : String
  amount : String
deriving DecidableEq, Repr

structure BankBalancePayload where
  account : String
  balances : List CoinPayload
deriving DecidableEq, Repr

structure SubaccountDepositPayload where
  subaccount_id : String
  denom : String
  available_balance : String
  total_balance : String
deriving DecidableEq, Repr

structure SpotTradePayload where
  market_id : String
  is_buy : Bool
  execution_type : String
  quantity : String
  price : String
  subaccount_id : String
  fee : String
  order_hash : String
  fee_recipient_address : String
  cid : String
  trade_id : String
deriving DecidableEq, Repr

structure PositionDeltaPayload where
  is_long : Bool
  execution_quantity : String
  execution_margin : String
  execution_price : String
deriving DecidableEq, Repr

structure DerivativeTradePayload where
  market_id : String
  is_buy : Bool
  execution_type : String
  subaccount_id : String
  position_delta : PositionDeltaPayload
  payout : String
  fee : String
  order_hash : String
  fee_recipient_address : String
  cid : String
  trade_id : String
deriving DecidableEq, Repr

structure SpotOrderPayload where
  status : String
  order_hash : String
  cid : String
  market_id : String
  subaccount_id : String
  price : String
  quantity : String
  fillable : String
  is_buy : Bool
  order_type : String
deriving DecidableEq, Repr

structure DerivativeOrderPayload where
  status : String
  order_hash : String
  cid : String
  market_id : String
  subaccount_id : String
  price : String
  quantity : String
  margin : String
  fillable : String
  is_buy : Bool
  order_type : String
  is_market : Bool
deriving DecidableEq, Repr

structure PriceLevelPayload where
  price : String
  quantity : String
deriving DecidableEq, Repr

structure OrderbookPayload where
  market_id : String
  buy_levels : List PriceLevelPayload
  sell_levels : List PriceLevelPayload
  sequence : Nat
deriving DecidableEq, Repr

structure PositionPayload where
  market_id : String
  subaccount_id : String
  is_long : Bool
  quantity : String
  entry_price : String
  margin : String
  cumulative_funding_entry : String
deriving DecidableEq, Repr

structure OraclePricePayload where
  symbol : String
  price : String
  oracle_type : String
deriving DecidableEq, Repr

structure DerivativeMarketPayload where
  market_id : String
  ticker : String
  oracle_base : String
  oracle_quote : String
  quote_denom : String
  maker_fee_rate : String
  taker_fee_rate : String
  initial_margin_ratio : String
  maintenance_margin_ratio : String
  is_perpetual : Bool
  status : String
  mark_price : String
deriving DecidableEq, Repr

structure ExchangeBalancePayload where
  subaccount_id : String
  denom : String
  available_balance : String
  total_balance : String
deriving DecidableEq, Repr

structure TrimmedLimitOrderPayload where
  price : String
  quantity : String
  order_hash : String
  subaccount_id : String
deriving DecidableEq, Repr

structure OrderbookL3Payload where
  market_id : String
  bids : List TrimmedLimitOrderPayload
  asks : List TrimmedLimitOrderPayload
  timestamp : Int
deriving DecidableEq, Repr

/-- models.rs KafkaPayload.  The source enum carries the serde untagged
attribute; the declaration order below matters for deserialization and is
the source order. -/
inductive KafkaPayload where
  | StreamBankBalances (v : List BankBalancePayload)
  | StreamSubaccountDeposits (v : List SubaccountDepositPayload)
  | StreamSpotOrderbooks (v : List OrderbookPayload)
  | StreamDerivativeOrderbooks (v : List OrderbookPayload)
  | StreamPositions (v : List PositionPayload)
  | StreamOraclePrices (v : List OraclePricePayload)
  | SpotTrades (v : List SpotTradePayload)
  | DerivativeTrades (v : List DerivativeTradePayload)
  | SpotOrders (v : List SpotOrderPayload)
  | DerivativeOrders (v : List DerivativeOrderPayload)
  | DerivativeMarkets (v : List DerivativeMarketPayload)
  | ExchangePositions (v : List PositionPayload)
  | ExchangeBalances (v : List ExchangeBalancePayload)
  | DerivativeL3Orderbooks (v : List OrderbookL3Payload)
deriving DecidableEq, Repr

/-- models.rs KafkaMessage; block_height and block_time are u64,
modelled as Nat. -/
structure KafkaMessage where
  message_type : MessageType
  block_height : Nat
  block_time : Nat
  payload : KafkaPayload
deriving DecidableEq, Repr

/-! Producer (grpc/src/producer.rs).  The broker handle is external; the
model keeps the tracked tip (latest_processed_block) and the list of
records submitted to the broker.  Per-record broker outcomes are external
and not modelled. -/

/-- producer.rs update_latest_block: monotone max update of the tip. -/
def update_latest_block (tip block_height : Nat) : Nat :=
  if block_height > tip then block_height else tip

/-- The filtering loop of send_batch_current_only: messages are compared
against the snapshot latest_block taken at call start; a message with a
strictly greater height also advances the running tip, a message at
exactly the snapshot height is kept without an update, anything lower is
dropped. -/
def filter_current (latest_block : Nat) :
    List KafkaMessage → Nat → List KafkaMessage × Nat
  | [], tip => ([], tip)
  | m :: ms, tip =>
    if m.block_height > latest_block then
      let tip1 := update_latest_block tip m.block_height
      let r := filter_current latest_block ms tip1
      (m :: r.1, r.2)
    else if m.block_height == latest_block then
      let r := filter_current latest_block ms tip
      (m :: r.1, r.2)
    else
      filter_current latest_block ms tip

/-- producer.rs send_batch_current_only: filter against the tip snapshot,
then hand the survivors to send_batch.  Returns the records submitted to
the broker (in order) and the final tip. -/
def send_batch_current_only (tip : Nat) (messages : List KafkaMessage) :
    List KafkaMessage × Nat :=
  filter_current tip messages tip

/-- A minimal envelope at a given height, for concrete producer scenarios. -/
def mkHeightMsg (h : Nat) : KafkaMessage :=
  ⟨MessageType.DerivativeMarket, h, 0, KafkaPayload.DerivativeMarkets []⟩

/-! Stream ingester (grpc/src/main.rs stream_and_process).  The protobuf
stream response is an opaque record producer per the specification scope;
its feed lists are modelled directly as lists of the payload records the
models.rs conversion yields, and the conversion emits one envelope per
nonempty feed in the source order. -/

/-- The per-chunk stream response: chain header plus the ten feed lists
of the source proto, each already in payload-record form. -/
structure StreamResponse where
  block_height : Nat
  block_time : Nat
  bank_balances : List BankBalancePayload
  subaccount_deposits : List SubaccountDepositPayload
  spot_trades : List SpotTradePayload
  derivative_trades : List DerivativeTradePayload
  spot_orders : List SpotOrderPayload
  derivative_orders : List DerivativeOrderPayload
  spot_orderbook_updates : List OrderbookPayload
  derivative_orderbook_updates : List OrderbookPayload
  positions : List PositionPayload
  oracle_prices : List OraclePricePayload
deriving DecidableEq, Repr

/-- models.rs From of StreamResponse for Vec of KafkaMessage: one envelope
per nonempty feed, in the source processing order, all at the response's
block height and time. -/
def kafkaMessagesOfStreamResponse (r : StreamResponse) : List KafkaMessage :=
  (if r.bank_balances.isEmpty then [] else
    [⟨MessageType.StreamBankBalance, r.block_height, r.block_time,
      KafkaPayload.StreamBankBalances r.bank_balances⟩]) ++
  (if r.subaccount_deposits.isEmpty then [] else
    [⟨MessageType.StreamSubaccountDeposit, r.block_height, r.block_time,
      KafkaPayload.StreamSubaccountDeposits r.subaccount_deposits⟩]) ++
  (if r.spot_trades.isEmpty then [] else
    [⟨MessageType.SpotTrade, r.block_height, r.block_time,
      KafkaPayload.SpotTrades r.spot_trades⟩]) ++
  (if r.derivative_trades.isEmpty then [] else
    [⟨MessageType.DerivativeTrade, r.block_height, r.block_time,
      KafkaPayload.DerivativeTrades r.derivative_trades⟩]) ++
  (if r.spot_orders.isEmpty then [] else
    [⟨MessageType.SpotOrder, r.block_height, r.block_time,
      KafkaPayload.SpotOrders r.spot_orders⟩]) ++
  (if r.derivative_orders.isEmpty then [] else
    [⟨MessageType.DerivativeOrder, r.block_height, r.block_time,
      KafkaPayload.DerivativeOrders r.derivative_orders⟩]) ++
  (if r.spot_orderbook_updates.isEmpty then [] else
    [⟨MessageType.StreamSpotOrderbook, r.block_height, r.block_time,
      KafkaPayload.StreamSpotOrderbooks r.spot_orderbook_updates⟩]) ++
  (if r.derivative_orderbook_updates.isEmpty then [] else
    [⟨MessageType.StreamDerivativeOrderbook, r.block_height, r.block_time,
      KafkaPayload.StreamDerivativeOrderbooks r.derivative_orderbook_updates⟩]) ++
  (if r.positions.isEmpty then [] else
    [⟨MessageType.StreamPosition, r.block_height, r.block_time,
      KafkaPayload.StreamPositions r.positions⟩]) ++
  (if r.oracle_prices.isEmpty then [] else
    [⟨MessageType.StreamOraclePrice, r.block_height, r.block_time,
      KafkaPayload.StreamOraclePrices r.oracle_prices⟩])

/-- One arm of the select loop in stream_and_process: a shutdown signal,
a successful stream item, or a stream receive error. -/
inductive StreamEvent where
  | shutdown
  | item (r : StreamResponse)
  | errItem
deriving Repr

/-- Why the stream_and_process loop stopped. -/
inductive ExitReason where
  | shutdownSignal
  | streamError
  | streamEnd
deriving DecidableEq, Repr

/-- main.rs stream_and_process: the streaming loop.  It threads the
producer tip, collects every record submitted to the broker, and stops at
the first shutdown signal, stream error, or end of stream.  On a stream
error the source logs and breaks out of the loop; there is no
re-connection, so nothing after the error is consumed. -/
def stream_and_process (tip : Nat) :
    List StreamEvent → List KafkaMessage × Nat × ExitReason
  | [] => ([], tip, ExitReason.streamEnd)
  | StreamEvent.shutdown :: _ => ([], tip, ExitReason.shutdownSignal)
  | StreamEvent.errItem :: _ => ([], tip, ExitReason.streamError)
  | StreamEvent.item r :: rest =>
    if r.block_height ≥ tip then
      let sent := send_batch_current_only tip (kafkaMessagesOfStreamResponse r)
      let k := stream_and_process sent.2 rest
      (sent.1 ++ k.1, k.2.1, k.2.2)
    else
      stream_and_process tip rest

/-- A concrete stream response at height 6 carrying one bank balance. -/
def sampleResponse6 : StreamResponse :=
  ⟨6, 60, [⟨"acct", []⟩], [], [], [], [], [], [], [], [], []⟩

/-! Heartbeat poller (grpc/src/query_client.rs ExchangeHeartbeat).  The
chain query services are external; a tick consumes the outcome of each
query it performs.  The proto market, position and orderbook records are
modelled with the fields the conversions in the source read. -/

/-- Proto derivative market core (the fields convert_derivative_market
reads; an absent market is replaced by the default). -/
structure DerivativeMarketProto where
  market_id : String
  ticker : String
  oracle_base : String
  oracle_quote : String
  quote_denom : String
  maker_fee_rate : String
  taker_fee_rate : String
  initial_margin_ratio : String
  maintenance_margin_ratio : String
  is_perpetual : Bool
  status : Int
deriving DecidableEq, Repr

/-- Default proto market used by unwrap_or_default in the conversion. -/
def defaultMarketProto : DerivativeMarketProto :=
  ⟨"", "", "", "", "", "", "", "", "", false, 0⟩

/-- Proto FullDerivativeMarket: optional market core plus mark price.
The perpetual info block only feeds fields absent from the models.rs
payload struct and is omitted. -/
structure FullDerivativeMarket where
  market : Option DerivativeMarketProto
  mark_price : String
deriving DecidableEq, Repr

/-- Proto position body read by convert_position. -/
structure PositionProto where
  is_long : Bool
  quantity : String
  entry_price : String
  margin : String
  cumulative_funding_entry : String
deriving DecidableEq, Repr

/-- Default proto position used by unwrap_or_default. -/
def defaultPositionProto : PositionProto :=
  ⟨false, "", "", "", ""⟩

/-- Proto DerivativePosition: subaccount and market ids plus an optional
position body. -/
structure DerivativePosition where
  market_id : String
  subaccount_id : String
  position : Option PositionProto
deriving DecidableEq, Repr

/-- Proto trimmed limit order of the L3 orderbook query. -/
structure TrimmedLimitOrder where
  price : String
  quantity : String
  order_hash : String
  subaccount_id : String
deriving DecidableEq, Repr

/-- Proto full derivative orderbook query response. -/
structure QueryFullDerivativeOrderbookResponse where
  bids : List TrimmedLimitOrder
  asks : List TrimmedLimitOrder
deriving DecidableEq, Repr

/-- query_client.rs map_market_status. -/
def map_market_status (status : Int) : String :=
  if status = 1 then "Active"
  else if status = 2 then "Paused"
  else if status = 3 then "Demolished"
  else if status = 4 then "Expired"
  else "Unknown"

/-- query_client.rs convert_derivative_market, restricted to the fields the
models.rs payload struct declares (the source constructor also names
fields that no declared struct carries). -/
def convert_derivative_market (market : FullDerivativeMarket) : DerivativeMarketPayload :=
  let market_data := market.market.getD defaultMarketProto
  ⟨market_data.market_id, market_data.ticker, market_data.oracle_base,
   market_data.oracle_quote, market_data.quote_denom, market_data.maker_fee_rate,
   market_data.taker_fee_rate, market_data.initial_margin_ratio,
   market_data.maintenance_margin_ratio, market_data.is_perpetual,
   map_market_status market_data.status, market.mark_price⟩

/-- query_client.rs convert_position. -/
def convert_position (position : DerivativePosition) : PositionPayload :=
  let position_data := position.position.getD defaultPositionProto
  ⟨position.market_id, position.subaccount_id, position_data.is_long,
   position_data.quantity, position_data.entry_price, position_data.margin,
   position_data.cumulative_funding_entry⟩

/-- query_client.rs convert_limit_order. -/
def convert_limit_order (order : TrimmedLimitOrder) : TrimmedLimitOrderPayload :=
  ⟨order.price, order.quantity, order.order_hash, order.subaccount_id⟩

/-- The query outcomes one heartbeat tick consumes: wall clock, the status
query for the chain tip, the first markets fetch, the positions fetch, and
the second markets fetch paired with each per-market orderbook fetch
outcome.  The exchange-balances fetch is commented out in the source. -/
structure TickFetches where
  now : Nat
  height : Option Nat
  markets1 : Option (List FullDerivativeMarket)
  positions : Option (List DerivativePosition)
  markets2 : Option (List (FullDerivativeMarket × Option QueryFullDerivativeOrderbookResponse))
deriving Repr

/-- Result of one heartbeat tick: final producer tip, the envelopes handed
to send_batch_current_only (in order), and the records that survive its
stale-block filter. -/
structure TickResult where
  tip : Nat
  handed : List KafkaMessage
  emitted : List KafkaMessage
deriving DecidableEq, Repr

/-- The all_orderbooks accumulation of the tick: markets whose proto body
is present and whose orderbook fetch succeeded, paired as
(market_id, orderbook). -/
def collectOrderbooks :
    List (FullDerivativeMarket × Option QueryFullDerivativeOrderbookResponse) →
    List (String × QueryFullDerivativeOrderbookResponse)
  | [] => []
  | (m, ob) :: rest =>
    match m.market, ob with
    | some market_data, some orderbook =>
      (market_data.market_id, orderbook) :: collectOrderbooks rest
    | _, _ => collectOrderbooks rest

/-- query_client.rs ExchangeHeartbeat, one iteration of the start loop:
update the tip from the status query (or fall back to the producer tip),
then snapshot markets, positions, and all per-market L3 orderbooks, each
as one single-batch envelope sent through send_batch_current_only.  The
source names the orderbook tag DerivativeFullOrderbook, the models.rs name
of that tag is DerivativeL3Orderbook. -/
def heartbeat_tick (tip : Nat) (f : TickFetches) : TickResult :=
  let tipH := match f.height with
    | some h => update_latest_block tip h
    | none => tip
  let block_height := match f.height with
    | some h => h
    | none => tipH
  let step1 : List KafkaMessage := match f.markets1 with
    | some markets =>
      if markets.isEmpty then []
      else [⟨MessageType.DerivativeMarket, block_height, f.now,
             KafkaPayload.DerivativeMarkets (markets.map convert_derivative_market)⟩]
    | none => []
  let r1 := send_batch_current_only tipH step1
  let step2 : List KafkaMessage := match f.positions with
    | some positions =>
      if positions.isEmpty then []
      else [⟨MessageType.ExchangePosition, block_height, f.now,
             KafkaPayload.ExchangePositions (positions.map convert_position)⟩]
    | none => []
  let r2 := send_batch_current_only r1.2 step2
  let step3 : List KafkaMessage := match f.markets2 with
    | some pairs =>
      let all_orderbooks := collectOrderbooks pairs
      if all_orderbooks.isEmpty then []
      else [⟨MessageType.DerivativeL3Orderbook, block_height, f.now,
             KafkaPayload.DerivativeL3Orderbooks (all_orderbooks.map (fun p =>
               ⟨p.1, p.2.bids.map convert_limit_order,
                p.2.asks.map convert_limit_order, (f.now : Int)⟩))⟩]
    | none => []
  let r3 := send_batch_current_only r2.2 step3
  ⟨r3.2, step1 ++ step2 ++ step3, r1.1 ++ r2.1 ++ r3.1⟩

/-- Number of records in a payload. -/
def payloadLength : KafkaPayload → Nat
  | KafkaPayload.StreamBankBalances v => v.length
  | KafkaPayload.StreamSubaccountDeposits v => v.length
  | KafkaPayload.StreamSpotOrderbooks v => v.length
  | KafkaPayload.StreamDerivativeOrderbooks v => v.length
  | KafkaPayload.StreamPositions v => v.length
  | KafkaPayload.StreamOraclePrices v => v.length
  | KafkaPayload.SpotTrades v => v.length
  | KafkaPayload.DerivativeTrades v => v.length
  | KafkaPayload.SpotOrders v => v.length
  | KafkaPayload.DerivativeOrders v => v.length
  | KafkaPayload.DerivativeMarkets v => v.length
  | KafkaPayload.ExchangePositions v => v.length
  | KafkaPayload.ExchangeBalances v => v.length
  | KafkaPayload.DerivativeL3Orderbooks v => v.length

/-- A concrete proto market for heartbeat scenarios. -/
def sampleMarketProto : DerivativeMarketProto :=
  ⟨"m1", "INJ/USDT", "inj", "usdt", "peggy", "1", "2", "3", "4", true, 1⟩

/-- A concrete full derivative market. -/
def sampleFullMarket : FullDerivativeMarket :=
  ⟨some sampleMarketProto, "42"⟩

/-- A concrete derivative position. -/
def sampleDerivativePosition : DerivativePosition :=
  ⟨"m1", "s1", some ⟨true, "1", "2", "3", "4"⟩⟩

/-- A concrete L3 orderbook response. -/
def sampleOrderbookResp : QueryFullDerivativeOrderbookResponse :=
  ⟨[⟨"9", "1", "h1", "s1"⟩], []⟩

/-- A concrete set of heartbeat tick fetch outcomes. -/
def sampleTick : TickFetches :=
  ⟨7, some 10, some [sampleFullMarket], some [sampleDerivativePosition],
   some [(sampleFullMarket, some sampleOrderbookResp)]⟩

/-! Canonical JSON serialization (producer.rs process_chunk serializes each
KafkaMessage with serde_json).  The serde semantics are embedded: a struct
serializes to an object with its fields in declaration order; a fieldless
enum variant serializes to its name as a string; the untagged payload enum
serializes to the bare inner value and deserializes by trying the variants
in declaration order, taking the first that parses; struct deserialization
requires every declared field and ignores unknown fields. -/

/-- JSON documents.  Null never arises from the modelled structs. -/
inductive Json where
  | str (s : String)
  | num (n : Int)
  | bool (b : Bool)
  | arr (elems : List Json)
  | obj (fields : List (String × Json))
deriving Repr

/-- Sequence an option-valued parse over a list (the semantics of
deserializing a JSON array element by element, failing on the first bad
element). -/
def mapOptionM {a b : Type} (f : a → Option b) : List a → Option (List b)
  | [] => some []
  | x :: rest => (f x).bind fun y => (mapOptionM f rest).map fun ys => y :: ys

/-- Field lookup in a serialized object (first binding wins). -/
def lookupField : List (String × Json) → String → Option Json
  | [], _ => none
  | (k, v) :: rest, key => if k == key then some v else lookupField rest key

/-- Get a field of an object document. -/
def Json.getField : Json → String → Option Json
  | Json.obj fields, key => lookupField fields key
  | _, _ => none

def Json.asStr : Json → Option String
  | Json.str s => some s
  | _ => none

def Json.asBool : Json → Option Bool
  | Json.bool b => some b
  | _ => none

/-- Unsigned integer field (u64): a negative number is rejected. -/
def Json.asNat : Json → Option Nat
  | Json.num (Int.ofNat n) => some n
  | _ => none

def Json.asInt : Json → Option Int
  | Json.num n => some n
  | _ => none

def Json.asArr : Json → Option (List Json)
  | Json.arr elems => some elems
  | _ => none

def Json.isArr : Json → Bool
  | Json.arr _ => true
  | _ => false

def CoinPayload.toJson (x : CoinPayload) : Json :=
  Json.obj [("denom", Json.str x.denom), ("amount", Json.str x.amount)]

def parseCoinPayload (j : Json) : Option CoinPayload := do
  let denom ← (j.getField "denom").bind Json.asStr
  let amount ← (j.getField "amount").bind Json.asStr
  pure ⟨denom, amount⟩

def BankBalancePayload.toJson (x : BankBalancePayload) : Json :=
  Json.obj [("account", Json.str x.account),
    ("balances", Json.arr (x.balances.map CoinPayload.toJson))]

def parseBankBalancePayload (j : Json) : Option BankBalancePayload := do
  let account ← (j.getField "account").bind Json.asStr
  let balances ← ((j.getField "balances").bind Json.asArr).bind
    (mapOptionM parseCoinPayload)
  pure ⟨account, balances⟩

def SubaccountDepositPayload.toJson (x : SubaccountDepositPayload) : Json :=
  Json.obj [("subaccount_id", Json.str x.subaccount_id),
    ("denom", Json.str x.denom),
    ("available_balance", Json.str x.available_balance),
    ("total_balance", Json.str x.total_balance)]

def parseSubaccountDepositPayload (j : Json) : Option SubaccountDepositPayload := do
  let subaccount_id ← (j.getField "subaccount_id").bind Json.asStr
  let denom ← (j.getField "denom").bind Json.asStr
  let available_balance ← (j.getField "available_balance").bind Json.asStr
  let total_balance ← (j.getField "total_balance").bind Json.asStr
  pure ⟨subaccount_id, denom, available_balance, total_balance⟩

def SpotTradePayload.toJson (x : SpotTradePayload) : Json :=
  Json.obj [("market_id", Json.str x.market_id),
    ("is_buy", Json.bool x.is_buy),
    ("execution_type", Json.str x.execution_type),
    ("quantity", Json.str x.quantity),
    ("price", Json.str x.price),
    ("subaccount_id", Json.str x.subaccount_id),
    ("fee", Json.str x.fee),
    ("order_hash", Json.str x.order_hash),
    ("fee_recipient_address", Json.str x.fee_recipient_address),
    ("cid", Json.str x.cid),
    ("trade_id", Json.str x.trade_id)]

def parseSpotTradePayload (j : Json) : Option SpotTradePayload := do
  let market_id ← (j.getField "market_id").bind Json.asStr
  let is_buy ← (j.getField "is_buy").bind Json.asBool
  let execution_type ← (j.getField "execution_type").bind Json.asStr
  let quantity ← (j.getField "quantity").bind Json.asStr
  let price ← (j.getField "price").bind Json.asStr
  let subaccount_id ← (j.getField "subaccount_id").bind Json.asStr
  let fee ← (j.getField "fee").bind Json.asStr
  let order_hash ← (j.getField "order_hash").bind Json.asStr
  let fee_recipient_address ← (j.getField "fee_recipient_address").bind Json.asStr
  let cid ← (j.getField "cid").bind Json.asStr
  let trade_id ← (j.getField "trade_id").bind Json.asStr
  pure ⟨market_id, is_buy, execution_type, quantity, price, subaccount_id, fee,
    order_hash, fee_recipient_address, cid, trade_id⟩

def PositionDeltaPayload.toJson (x : PositionDeltaPayload) : Json :=
  Json.obj [("is_long", Json.bool x.is_long),
    ("execution_quantity", Json.str x.execution_quantity),
    ("execution_margin", Json.str x.execution_margin),
    ("execution_price", Json.str x.execution_price)]

def parsePositionDeltaPayload (j : Json) : Option PositionDeltaPayload := do
  let is_long ← (j.getField "is_long").bind Json.asBool
  let execution_quantity ← (j.getField "execution_quantity").bind Json.asStr
  let execution_margin ← (j.getField "execution_margin").bind Json.asStr
  let execution_price ← (j.getField "execution_price").bind Json.asStr
  pure ⟨is_long, execution_quantity, execution_margin, execution_price⟩

def DerivativeTradePayload.toJson (x : DerivativeTradePayload) : Json :=
  Json.obj [("market_id", Json.str x.market_id),
    ("is_buy", Json.bool x.is_buy),
    ("execution_type", Json.str x.execution_type),
    ("subaccount_id", Json.str x.subaccount_id),
    ("position_delta", x.position_delta.toJson),
    ("payout", Json.str x.payout),
    ("fee", Json.str x.fee),
    ("order_hash", Json.str x.order_hash),
    ("fee_recipient_address", Json.str x.fee_recipient_address),
    ("cid", Json.str x.cid),
    ("trade_id", Json.str x.trade_id)]

def parseDerivativeTradePayload (j : Json) : Option DerivativeTradePayload := do
  let market_id ← (j.getField "market_id").bind Json.asStr
  let is_buy ← (j.getField "is_buy").bind Json.asBool
  let execution_type ← (j.getField "execution_type").bind Json.asStr
  let subaccount_id ← (j.getField "subaccount_id").bind Json.asStr
  let position_delta ← (j.getField "position_delta").bind parsePositionDeltaPayload
  let payout ← (j.getField "payout").bind Json.asStr
  let fee ← (j.getField "fee").bind Json.asStr
  let order_hash ← (j.getField "order_hash").bind Json.asStr
  let fee_recipient_address ← (j.getField "fee_recipient_address").bind Json.asStr
  let cid ← (j.getField "cid").bind Json.asStr
  let trade_id ← (j.getField "trade_id").bind Json.asStr
  pure ⟨market_id, is_buy, execution_type, subaccount_id, position_delta, payout,
    fee, order_hash, fee_recipient_address, cid, trade_id⟩

def SpotOrderPayload.toJson (x : SpotOrderPayload) : Json :=
  Json.obj [("status", Json.str x.status),
    ("order_hash", Json.str x.order_hash),
    ("cid", Json.str x.cid),
    ("market_id", Json.str x.market_id),
    ("subaccount_id", Json.str x.subaccount_id),
    ("price", Json.str x.price),
    ("quantity", Json.str x.quantity),
    ("fillable", Json.str x.fillable),
    ("is_buy", Json.bool x.is_buy),
    ("order_type", Json.str x.order_type)]

def parseSpotOrderPayload (j : Json) : Option SpotOrderPayload := do
  let status ← (j.getField "status").bind Json.asStr
  let order_hash ← (j.getField "order_hash").bind Json.asStr
  let cid ← (j.getField "cid").bind Json.asStr
  let market_id ← (j.getField "market_id").bind Json.asStr
  let subaccount_id ← (j.getField "subaccount_id").bind Json.asStr
  let price ← (j.getField "price").bind Json.asStr
  let quantity ← (j.getField "quantity").bind Json.asStr
  let fillable ← (j.getField "fillable").bind Json.asStr
  let is_buy ← (j.getField "is_buy").bind Json.asBool
  let order_type ← (j.getField "order_type").bind Json.asStr
  pure ⟨status, order_hash, cid, market_id, subaccount_id, price, quantity,
    fillable, is_buy, order_type⟩

def DerivativeOrderPayload.toJson (x : DerivativeOrderPayload) : Json :=
  Json.obj [("status", Json.str x.status),
    ("order_hash", Json.str x.order_hash),
    ("cid", Json.str x.cid),
    ("market_id", Json.str x.market_id),
    ("subaccount_id", Json.str x.subaccount_id),
    ("price", Json.str x.price),
    ("quantity", Json.str x.quantity),
    ("margin", Json.str x.margin),
    ("fillable", Json.str x.fillable),
    ("is_buy", Json.bool x.is_buy),
    ("order_type", Json.str x.order_type),
    ("is_market", Json.bool x.is_market)]

def parseDerivativeOrderPayload (j : Json) : Option DerivativeOrderPayload := do
  let status ← (j.getField "status").bind Json.asStr
  let order_hash ← (j.getField "order_hash").bind Json.asStr
  let cid ← (j.getField "cid").bind Json.asStr
  let market_id ← (j.getField "market_id").bind Json.asStr
  let subaccount_id ← (j.getField "subaccount_id").bind Json.asStr
  let price ← (j.getField "price").bind Json.asStr
  let quantity ← (j.getField "quantity").bind Json.asStr
  let margin ← (j.getField "margin").bind Json.asStr
  let fillable ← (j.getField "fillable").bind Json.asStr
  let is_buy ← (j.getField "is_buy").bind Json.asBool
  let order_type ← (j.getField "order_type").bind Json.asStr
  let is_market ← (j.getField "is_market").bind Json.asBool
  pure ⟨status, order_hash, cid, market_id, subaccount_id, price, quantity,
    margin, fillable, is_buy, order_type, is_market⟩

def PriceLevelPayload.toJson (x : PriceLevelPayload) : Json :=
  Json.obj [("price", Json.str x.price), ("quantity", Json.str x.quantity)]

def parsePriceLevelPayload (j : Json) : Option PriceLevelPayload := do
  let price ← (j.getField "price").bind Json.asStr
  let quantity ← (j.getField "quantity").bind Json.asStr
  pure ⟨price, quantity⟩

def OrderbookPayload.toJson (x : OrderbookPayload) : Json :=
  Json.obj [("market_id", Json.str x.market_id),
    ("buy_levels", Json.arr (x.buy_levels.map PriceLevelPayload.toJson)),
    ("sell_levels", Json.arr (x.sell_levels.map PriceLevelPayload.toJson)),
    ("sequence", Json.num (Int.ofNat x.sequence))]

def parseOrderbookPayload (j : Json) : Option OrderbookPayload := do
  let market_id ← (j.getField "market_id").bind Json.asStr
  let buy_levels ← ((j.getField "buy_levels").bind Json.asArr).bind
    (mapOptionM parsePriceLevelPayload)
  let sell_levels ← ((j.getField "sell_levels").bind Json.asArr).bind
    (mapOptionM parsePriceLevelPayload)
  let sequence ← (j.getField "sequence").bind Json.asNat
  pure ⟨market_id, buy_levels, sell_levels, sequence⟩

def PositionPayload.toJson (x : PositionPayload) : Json :=
  Json.obj [("market_id", Json.str x.market_id),
    ("subaccount_id", Json.str x.subaccount_id),
    ("is_long", Json.bool x.is_long),
    ("quantity", Json.str x.quantity),
    ("entry_price", Json.str x.entry_price),
    ("margin", Json.str x.margin),
    ("cumulative_funding_entry", Json.str x.cumulative_funding_entry)]

def parsePositionPayload (j : Json) : Option PositionPayload := do
  let market_id ← (j.getField "market_id").bind Json.asStr
  let subaccount_id ← (j.getField "subaccount_id").bind Json.asStr
  let is_long ← (j.getField "is_long").bind Json.asBool
  let quantity ← (j.getField "quantity").bind Json.asStr
  let entry_price ← (j.getField "entry_price").bind Json.asStr
  let margin ← (j.getField "margin").bind Json.asStr
  let cumulative_funding_entry ← (j.getField "cumulative_funding_entry").bind Json.asStr
  pure ⟨market_id, subaccount_id, is_long, quantity, entry_price, margin,
    cumulative_funding_entry⟩

def OraclePricePayload.toJson (x : OraclePricePayload) : Json :=
  Json.obj [("symbol", Json.str x.symbol),
    ("price", Json.str x.price),
    ("oracle_type", Json.str x.oracle_type)]

def parseOraclePricePayload (j : Json) : Option OraclePricePayload := do
  let symbol ← (j.getField "symbol").bind Json.asStr
  let price ← (j.getField "price").bind Json.asStr
  let oracle_type ← (j.getField "oracle_type").bind Json.asStr
  pure ⟨symbol, price, oracle_type⟩

def DerivativeMarketPayload.toJson (x : DerivativeMarketPayload) : Json :=
  Json.obj [("market_id", Json.str x.market_id),
    ("ticker", Json.str x.ticker),
    ("oracle_base", Json.str x.oracle_base),
    ("oracle_quote", Json.str x.oracle_quote),
    ("quote_denom", Json.str x.quote_denom),
    ("maker_fee_rate", Json.str x.maker_fee_rate),
    ("taker_fee_rate", Json.str x.taker_fee_rate),
    ("initial_margin_ratio", Json.str x.initial_margin_ratio),
    ("maintenance_margin_ratio", Json.str x.maintenance_margin_ratio),
    ("is_perpetual", Json.bool x.is_perpetual),
    ("status", Json.str x.status),
    ("mark_price", Json.str x.mark_price)]

def parseDerivativeMarketPayload (j : Json) : Option DerivativeMarketPayload := do
  let market_id ← (j.getField "market_id").bind Json.asStr
  let ticker ← (j.getField "ticker").bind Json.asStr
  let oracle_base ← (j.getField "oracle_base").bind Json.asStr
  let oracle_quote ← (j.getField "oracle_quote").bind Json.asStr
  let quote_denom ← (j.getField "quote_denom").bind Json.asStr
  let maker_fee_rate ← (j.getField "maker_fee_rate").bind Json.asStr
  let taker_fee_rate ← (j.getField "taker_fee_rate").bind Json.asStr
  let initial_margin_ratio ← (j.getField "initial_margin_ratio").bind Json.asStr
  let maintenance_margin_ratio ← (j.getField "maintenance_margin_ratio").bind Json.asStr
  let is_perpetual ← (j.getField "is_perpetual").bind Json.asBool
  let status ← (j.getField "status").bind Json.asStr
  let mark_price ← (j.getField "mark_price").bind Json.asStr
  pure ⟨market_id, ticker, oracle_base, oracle_quote, quote_denom, maker_fee_rate,
    taker_fee_rate, initial_margin_ratio, maintenance_margin_ratio, is_perpetual,
    status, mark_price⟩

def ExchangeBalancePayload.toJson (x : ExchangeBalancePayload) : Json :=
  Json.obj [("subaccount_id", Json.str x.subaccount_id),
    ("denom", Json.str x.denom),
    ("available_balance", Json.str x.available_balance),
    ("total_balance", Json.str x.total_balance)]

def parseExchangeBalancePayload (j : Json) : Option ExchangeBalancePayload := do
  let subaccount_id ← (j.getField "subaccount_id").bind Json.asStr
  let denom ← (j.getField "denom").bind Json.asStr
  let available_balance ← (j.getField "available_balance").bind Json.asStr
  let total_balance ← (j.getField "total_balance").bind Json.asStr
  pure ⟨subaccount_id, denom, available_balance, total_balance⟩

def TrimmedLimitOrderPayload.toJson (x : TrimmedLimitOrderPayload) : Json :=
  Json.obj [("price", Json.str x.price),
    ("quantity", Json.str x.quantity),
    ("order_hash", Json.str x.order_hash),
    ("subaccount_id", Json.str x.subaccount_id)]

def parseTrimmedLimitOrderPayload (j : Json) : Option TrimmedLimitOrderPayload := do
  let price ← (j.getField "price").bind Json.asStr
  let quantity ← (j.getField "quantity").bind Json.asStr
  let order_hash ← (j.getField "order_hash").bind Json.asStr
  let subaccount_id ← (j.getField "subaccount_id").bind Json.asStr
  pure ⟨price, quantity, order_hash, subaccount_id⟩

def OrderbookL3Payload.toJson (x : OrderbookL3Payload) : Json :=
  Json.obj [("market_id", Json.str x.market_id),
    ("bids", Json.arr (x.bids.map TrimmedLimitOrderPayload.toJson)),
    ("asks", Json.arr (x.asks.map TrimmedLimitOrderPayload.toJson)),
    ("timestamp", Json.num x.timestamp)]

def parseOrderbookL3Payload (j : Json) : Option OrderbookL3Payload := do
  let market_id ← (j.getField "market_id").bind Json.asStr
  let bids ← ((j.getField "bids").bind Json.asArr).bind
    (mapOptionM parseTrimmedLimitOrderPayload)
  let asks ← ((j.getField "asks").bind Json.asArr).bind
    (mapOptionM parseTrimmedLimitOrderPayload)
  let timestamp ← (j.getField "timestamp").bind Json.asInt
  pure ⟨market_id, bids, asks, timestamp⟩

/-- Serialization of the untagged payload enum: the bare list of records. -/
def serializeKafkaPayload : KafkaPayload → Json
  | KafkaPayload.StreamBankBalances v => Json.arr (v.map BankBalancePayload.toJson)
  | KafkaPayload.StreamSubaccountDeposits v =>
    Json.arr (v.map SubaccountDepositPayload.toJson)
  | KafkaPayload.StreamSpotOrderbooks v => Json.arr (v.map OrderbookPayload.toJson)
  | KafkaPayload.StreamDerivativeOrderbooks v =>
    Json.arr (v.map OrderbookPayload.toJson)
  | KafkaPayload.StreamPositions v => Json.arr (v.map PositionPayload.toJson)
  | KafkaPayload.StreamOraclePrices v => Json.arr (v.map OraclePricePayload.toJson)
  | KafkaPayload.SpotTrades v => Json.arr (v.map SpotTradePayload.toJson)
  | KafkaPayload.DerivativeTrades v => Json.arr (v.map DerivativeTradePayload.toJson)
  | KafkaPayload.SpotOrders v => Json.arr (v.map SpotOrderPayload.toJson)
  | KafkaPayload.DerivativeOrders v => Json.arr (v.map DerivativeOrderPayload.toJson)
  | KafkaPayload.DerivativeMarkets v =>
    Json.arr (v.map DerivativeMarketPayload.toJson)
  | KafkaPayload.ExchangePositions v => Json.arr (v.map PositionPayload.toJson)
  | KafkaPayload.ExchangeBalances v => Json.arr (v.map ExchangeBalancePayload.toJson)
  | KafkaPayload.DerivativeL3Orderbooks v =>
    Json.arr (v.map OrderbookL3Payload.toJson)

/-- One attempt of the untagged deserializer: the document must be an
array whose every element parses as the variant's record type. -/
def tryVariant {α : Type} (parse : Json → Option α) (mk : List α → KafkaPayload)
    (j : Json) : Option KafkaPayload :=
  (j.asArr.bind (mapOptionM parse)).map mk

/-- Untagged deserialization: try the variants in declaration order and
return the first success. -/
def deserializeKafkaPayload (j : Json) : Option KafkaPayload :=
  (tryVariant parseBankBalancePayload KafkaPayload.StreamBankBalances j).orElse fun _ =>
  (tryVariant parseSubaccountDepositPayload KafkaPayload.StreamSubaccountDeposits j).orElse fun _ =>
  (tryVariant parseOrderbookPayload KafkaPayload.StreamSpotOrderbooks j).orElse fun _ =>
  (tryVariant parseOrderbookPayload KafkaPayload.StreamDerivativeOrderbooks j).orElse fun _ =>
  (tryVariant parsePositionPayload KafkaPayload.StreamPositions j).orElse fun _ =>
  (tryVariant parseOraclePricePayload KafkaPayload.StreamOraclePrices j).orElse fun _ =>
  (tryVariant parseSpotTradePayload KafkaPayload.SpotTrades j).orElse fun _ =>
  (tryVariant parseDerivativeTradePayload KafkaPayload.DerivativeTrades j).orElse fun _ =>
  (tryVariant parseSpotOrderPayload KafkaPayload.SpotOrders j).orElse fun _ =>
  (tryVariant parseDerivativeOrderPayload KafkaPayload.DerivativeOrders j).orElse fun _ =>
  (tryVariant parseDerivativeMarketPayload KafkaPayload.DerivativeMarkets j).orElse fun _ =>
  (tryVariant parsePositionPayload KafkaPayload.ExchangePositions j).orElse fun _ =>
  (tryVariant parseExchangeBalancePayload KafkaPayload.ExchangeBalances j).orElse fun _ =>
  tryVariant parseOrderbookL3Payload KafkaPayload.DerivativeL3Orderbooks j

/-- A fieldless enum variant serializes to its name. -/
def serializeMessageType : MessageType → String
  | MessageType.StreamBankBalance => "StreamBankBalance"
  | MessageType.StreamSubaccountDeposit => "StreamSubaccountDeposit"
  | MessageType.StreamPosition => "StreamPosition"
  | MessageType.StreamSpotOrderbook => "StreamSpotOrderbook"
  | MessageType.StreamDerivativeOrderbook => "StreamDerivativeOrderbook"
  | MessageType.StreamOraclePrice => "StreamOraclePrice"
  | MessageType.SpotTrade => "SpotTrade"
  | MessageType.DerivativeTrade => "DerivativeTrade"
  | MessageType.SpotOrder => "SpotOrder"
  | MessageType.DerivativeOrder => "DerivativeOrder"
  | MessageType.DerivativeMarket => "DerivativeMarket"
  | MessageType.ExchangeBalance => "ExchangeBalance"
  | MessageType.ExchangePosition => "ExchangePosition"
  | MessageType.DerivativeL3Orderbook => "DerivativeL3Orderbook"

def parseMessageType (s : String) : Option MessageType :=
  if s == "StreamBankBalance" then some MessageType.StreamBankBalance
  else if s == "StreamSubaccountDeposit" then some MessageType.StreamSubaccountDeposit
  else if s == "StreamPosition" then some MessageType.StreamPosition
  else if s == "StreamSpotOrderbook" then some MessageType.StreamSpotOrderbook
  else if s == "StreamDerivativeOrderbook" then some MessageType.StreamDerivativeOrderbook
  else if s == "StreamOraclePrice" then some MessageType.StreamOraclePrice
  else if s == "SpotTrade" then some MessageType.SpotTrade
  else if s == "DerivativeTrade" then some MessageType.DerivativeTrade
  else if s == "SpotOrder" then some MessageType.SpotOrder
  else if s == "DerivativeOrder" then some MessageType.DerivativeOrder
  else if s == "DerivativeMarket" then some MessageType.DerivativeMarket
  else if s == "ExchangeBalance" then some MessageType.ExchangeBalance
  else if s == "ExchangePosition" then some MessageType.ExchangePosition
  else if s == "DerivativeL3Orderbook" then some MessageType.DerivativeL3Orderbook
  else none

/-- The canonical log-record document of an envelope (producer.rs
process_chunk serializes exactly this). -/
def serializeKafkaMessage (m : KafkaMessage) : Json :=
  Json.obj [("message_type", Json.str (serializeMessageType m.message_type)),
    ("block_height", Json.num (Int.ofNat m.block_height)),
    ("block_time", Json.num (Int.ofNat m.block_time)),
    ("payload", serializeKafkaPayload m.payload)]

/-- Deserialization of an envelope document. -/
def deserializeKafkaMessage (j : Json) : Option KafkaMessage := do
  let message_type ← ((j.getField "message_type").bind Json.asStr).bind parseMessageType
  let block_height ← (j.getField "block_height").bind Json.asNat
  let block_time ← (j.getField "block_time").bind Json.asNat
  let payload ← (j.getField "payload").bind deserializeKafkaPayload
  pure ⟨message_type, block_height, block_time, payload⟩

/-- The record key of producer.rs process_chunk. -/
def recordKey (m : KafkaMessage) : String :=
  toString m.block_height ++ "-" ++ toString m.block_time

/-- A concrete position record. -/
def samplePosition : PositionPayload :=
  ⟨"m1", "s1", true, "1", "100", "10", "0"⟩

/-- The C1 counterexample envelope: a heartbeat positions snapshot. -/
def exC1 : KafkaMessage :=
  ⟨MessageType.ExchangePosition, 12, 34,
   KafkaPayload.ExchangePositions [samplePosition]⟩

/-- What the C1 counterexample envelope round-trips to: the payload comes
back as the earlier identically-shaped StreamPositions variant. -/
def exC1round : KafkaMessage :=
  ⟨MessageType.ExchangePosition, 12, 34,
   KafkaPayload.StreamPositions [samplePosition]⟩

end Grpc

namespace Redis

/-! The cache sink (injective-consumer/src/redis_consumer/mod.rs) and the
market preloader (injective-consumer/src/market_preloader/mod.rs).  The
external in-memory store is modelled as an explicit key/value state; every
handler returns both the updated state and the trace of store operations
it issued, and trajectory properties are folds over input envelopes.
Decimal strings are parsed by an exact rational parser modelling the
successful cases of Rust string-to-f64 conversion. -/

/-- Is pre a prefix of s (key-glob matching, e.g. position:*). -/
def strStartsWith (s pre : String) : Bool := pre.data.isPrefixOf s.data

/-- Digit character span of a string head. -/
def spanDigits : List Char → List Nat × List Char
  | [] => ([], [])
  | c :: rest =>
    if c.isDigit then
      let r := spanDigits rest
      ((c.toNat - 48) :: r.1, r.2)
    else ([], c :: rest)

/-- A digit list read as a base-ten natural. -/
def natOfDigits (ds : List Nat) : Nat := ds.foldl (fun acc d => 10 * acc + d) 0

/-- Exact model of Rust string-to-f64 parsing on its successful inputs:
optional sign, integer digits, optional fraction, optional exponent,
no trailing garbage; the value is exact rational instead of rounded
binary floating point. -/
def parseDec (s : String) : Option ℚ :=
  let p0 := s.data
  let signAndRest : Bool × List Char := match p0 with
    | '-' :: rest => (true, rest)
    | '+' :: rest => (false, rest)
    | _ => (false, p0)
  let ipr := spanDigits signAndRest.2
  let fpr : List Nat × List Char := match ipr.2 with
    | '.' :: rest => spanDigits rest
    | _ => ([], ipr.2)
  if ipr.1.isEmpty && fpr.1.isEmpty then none
  else
    let fl := fpr.1.length
    let mantNum : Int := Int.ofNat (natOfDigits ipr.1 * 10 ^ fl + natOfDigits fpr.1)
    let signedNum : Int := if signAndRest.1 then -mantNum else mantNum
    let den : Nat := 10 ^ fl
    match fpr.2 with
    | [] => some (mkRat signedNum den)
    | e :: rest =>
      if e == 'e' || e == 'E' then
        let esignAndRest : Bool × List Char := match rest with
          | '-' :: r => (true, r)
          | '+' :: r => (false, r)
          | _ => (false, rest)
        let edr := spanDigits esignAndRest.2
        if edr.1.isEmpty || !edr.2.isEmpty then none
        else
          let ex := natOfDigits edr.1
          some (if esignAndRest.1 then mkRat signedNum (den * 10 ^ ex)
                else mkRat (signedNum * Int.ofNat (10 ^ ex)) den)
      else none

/-- Model of Rust string-to-bool parsing. -/
def parseBoolStr (s : String) : Option Bool :=
  if s == "true" then some true
  else if s == "false" then some false
  else none

/-- A stored cache value, tagged by what the source wrote: a raw string,
a numeric value written from an f64, a u64 counter, or a bool.  Reading a
numeric value back through string parsing recovers the value itself. -/
inductive Val where
  | s (v : String)
  | q (v : ℚ)
  | n (v : Nat)
  | b (v : Bool)
deriving DecidableEq, Repr

/-- Reading a stored value as the source does with parse to f64. -/
def valParseQ : Val → Option ℚ
  | Val.s v => parseDec v
  | Val.q v => some v
  | Val.n v => some (mkRat (Int.ofNat v) 1)
  | Val.b _ => none

/-- Reading a stored value as the source does with parse to bool. -/
def valParseB : Val → Option Bool
  | Val.s v => parseBoolStr v
  | Val.b v => some v
  | _ => none

/-- Association-list update (insert or replace). -/
def assocSet {α : Type} : List (String × α) → String → α → List (String × α)
  | [], k, v => [(k, v)]
  | (k0, v0) :: rest, k, v =>
    if k0 == k then (k0, v) :: rest else (k0, v0) :: assocSet rest k v

/-- Association-list lookup. -/
def assocGet {α : Type} : List (String × α) → String → Option α
  | [], _ => none
  | (k0, v0) :: rest, k => if k0 == k then some v0 else assocGet rest k

/-- The materialized store: hashes, sets and plain strings. -/
structure Cache where
  hashes : List (String × List (String × Val))
  sets : List (String × List String)
  strs : List (String × String)
deriving DecidableEq, Repr

def emptyCache : Cache := ⟨[], [], []⟩

def hsetC (c : Cache) (key field : String) (v : Val) : Cache :=
  ⟨assocSet c.hashes key (assocSet ((assocGet c.hashes key).getD []) field v),
   c.sets, c.strs⟩

def hgetC (c : Cache) (key field : String) : Option Val :=
  (assocGet c.hashes key).bind fun h => assocGet h field

/-- The exists check of the source on a market key (only hashes are ever
stored under such keys). -/
def hashExists (c : Cache) (key : String) : Bool :=
  (assocGet c.hashes key).isSome

def smembersC (c : Cache) (key : String) : List String :=
  (assocGet c.sets key).getD []

def saddC (c : Cache) (key member : String) : Cache :=
  let cur := smembersC c key
  if cur.contains member then c
  else ⟨c.hashes, assocSet c.sets key (cur ++ [member]), c.strs⟩

def sremC (c : Cache) (key member : String) : Cache :=
  ⟨c.hashes, assocSet c.sets key ((smembersC c key).erase member), c.strs⟩

def setStrC (c : Cache) (key value : String) : Cache :=
  ⟨c.hashes, c.sets, assocSet c.strs key value⟩

def strsGet (c : Cache) (key : String) : Option String :=
  assocGet c.strs key

/-- One store operation issued by a handler (publish is the legacy
conn.publish broadcast, which mutates no key). -/
inductive CacheOp where
  | hset (key field : String) (v : Val)
  | sadd (key member : String)
  | srem (key member : String)
  | setStr (key value : String)
  | publish (channel : String)
deriving DecidableEq, Repr

def applyOp (c : Cache) : CacheOp → Cache
  | CacheOp.hset k f v => hsetC c k f v
  | CacheOp.sadd k m => saddC c k m
  | CacheOp.srem k m => sremC c k m
  | CacheOp.setStr k v => setStrC c k v
  | CacheOp.publish _ => c

def applyOps (c : Cache) (ops : List CacheOp) : Cache :=
  ops.foldl applyOp c

/-- The key an operation mutates, if any. -/
def CacheOp.targetKey : CacheOp → Option String
  | CacheOp.hset k _ _ => some k
  | CacheOp.sadd k _ => some k
  | CacheOp.srem k _ => some k
  | CacheOp.setStr k _ => some k
  | CacheOp.publish _ => none

/-- Does the operation mutate a key matching the glob position:* ? -/
def isPositionWrite (op : CacheOp) : Bool :=
  match op.targetKey with
  | some k => strStartsWith k "position:"
  | none => false

/-- redis_consumer ProcessingPhase. -/
inductive ProcessingPhase where
  | markets
  | others
deriving DecidableEq, Repr

/-- An operation tagged with the phase the sink was in when issuing it. -/
abbrev TOp := ProcessingPhase × CacheOp

/-- Consumer-side derivative market record: the fields the cache sink and
the preloader read.  The consumer crate declares a market payload without
cumulative_funding although both handlers read it; that field is modelled
from the spec (section 3 market record table). -/
structure DerivativeMarketPayloadC where
  market_id : String
  ticker : String
  maintenance_margin_ratio : String
  status : String
  mark_price : String
  cumulative_funding : String
deriving DecidableEq, Repr

/-- Consumer-side payload union: the variants the cache sink
distinguishes; every other variant is ignored by it and is collapsed into
an opaque constructor. -/
inductive KafkaPayloadC where
  | DerivativeMarkets (v : List DerivativeMarketPayloadC)
  | ExchangePositions (v : List Grpc.PositionPayload)
  | StreamPositions (v : List Grpc.PositionPayload)
  | DerivativeTrades (v : List Grpc.DerivativeTradePayload)
  | StreamDerivativeOrderbooks (v : List Grpc.OrderbookPayload)
  | otherPayload
deriving DecidableEq, Repr

/-- Consumer-side envelope. -/
structure KafkaMessageC where
  message_type : Grpc.MessageType
  block_height : Nat
  block_time : Nat
  payload : KafkaPayloadC
deriving DecidableEq, Repr

/-- RedisProcessor state: phase, deferred queue, pending market set
(a duplicate-free list), and the owned cache. -/
structure SinkState where
  phase : ProcessingPhase
  deferred_messages : List KafkaMessageC
  market_ids : List String
  cache : Cache
deriving Repr

/-- Fresh processor over an empty store. -/
def initState : SinkState :=
  ⟨ProcessingPhase.markets, [], [], emptyCache⟩

/-- redis_consumer process_position: skip when the market is unknown or
any of quantity, entry price, margin is non-positive; otherwise store the
position, compute its liquidation data from the cached market record, and
maintain the liquidatable set (with the legacy alert broadcast). -/
def processPosition (c : Cache) (position : Grpc.PositionPayload)
    (block_height timestamp : Nat) : Cache × List CacheOp :=
  let market_key := "market:derivative:" ++ position.market_id
  if !(hashExists c market_key) then (c, [])
  else
    let is_long := position.is_long
    let quantity := (parseDec position.quantity).getD 0
    let entry_price := (parseDec position.entry_price).getD 0
    let margin := (parseDec position.margin).getD 0
    let cumulative_funding_entry := (parseDec position.cumulative_funding_entry).getD 0
    if quantity ≤ 0 ∨ entry_price ≤ 0 ∨ margin ≤ 0 then (c, [])
    else
      let mark_price := ((hgetC c market_key "mark_price").bind valParseQ).getD 0
      let maintenance_margin_ratio :=
        ((hgetC c market_key "maintenance_margin_ratio").bind valParseQ).getD (1/20)
      let market_cumulative_funding :=
        ((hgetC c market_key "cumulative_funding").bind valParseQ).getD 0
      let liquidation_price := Compute.calculate_liquidation_price is_long
        entry_price margin quantity maintenance_margin_ratio
        market_cumulative_funding cumulative_funding_entry
      let key := "position:" ++ position.market_id ++ ":" ++ position.subaccount_id
      let is_liq := Compute.is_liquidatable is_long liquidation_price mark_price
      let ops : List CacheOp :=
        [CacheOp.hset key "is_long" (Val.b position.is_long),
         CacheOp.hset key "quantity" (Val.s position.quantity),
         CacheOp.hset key "entry_price" (Val.s position.entry_price),
         CacheOp.hset key "margin" (Val.s position.margin),
         CacheOp.hset key "cumulative_funding_entry" (Val.s position.cumulative_funding_entry),
         CacheOp.hset key "liquidation_price" (Val.q liquidation_price),
         CacheOp.hset key "block_height" (Val.n block_height),
         CacheOp.hset key "timestamp" (Val.n timestamp),
         CacheOp.sadd ("positions:market:" ++ position.market_id) position.subaccount_id,
         CacheOp.sadd ("positions:subaccount:" ++ position.subaccount_id) position.market_id,
         CacheOp.hset key "is_liquidatable" (Val.b is_liq)] ++
        (if is_liq then
          [CacheOp.sadd "liquidatable_positions"
             (position.market_id ++ ":" ++ position.subaccount_id),
           CacheOp.publish "liquidation_alerts"]
         else
          [CacheOp.srem "liquidatable_positions"
             (position.market_id ++ ":" ++ position.subaccount_id)])
      (applyOps c ops, ops)

/-- redis_consumer process_non_market_message: positions are processed
(the fallback manual deserialization also accepts the identically-shaped
StreamPositions payload); trades and derivative orderbook updates are
published to pub/sub only; everything else is skipped. -/
def processNonMarketMessage (c : Cache) (message : KafkaMessageC) :
    Cache × List CacheOp :=
  if message.message_type = Grpc.MessageType.ExchangePosition then
    let positions := match message.payload with
      | KafkaPayloadC.ExchangePositions ps => ps
      | KafkaPayloadC.StreamPositions ps => ps
      | _ => []
    positions.foldl (fun acc p =>
      let r := processPosition acc.1 p message.block_height message.block_time
      (r.1, acc.2 ++ r.2)) (c, [])
  else
    match message.payload with
    | KafkaPayloadC.DerivativeTrades _ => (c, [])
    | KafkaPayloadC.StreamDerivativeOrderbooks _ => (c, [])
    | _ => (c, [])

/-- redis_consumer process_queued_messages: drain the deferred queue in
first-in-first-out order through the non-market path. -/
def processQueuedMessages (c : Cache) : List KafkaMessageC → Cache × List CacheOp
  | [] => (c, [])
  | m :: rest =>
    let r := processNonMarketMessage c m
    let k := processQueuedMessages r.1 rest
    (k.1, r.2 ++ k.2)

/-- The per-position recomputation loop shared verbatim by
redis_consumer process_derivative_market and market_preloader
process_derivative_market: re-read the stored position, skip on a missing
field or non-positive data, otherwise update its liquidation fields and
the liquidatable set. -/
def recalcPosition (c : Cache) (market_id subaccount_id : String)
    (maintenance_margin_ratio market_cumulative_funding mark_price : ℚ) :
    Cache × List CacheOp :=
  let position_key := "position:" ++ market_id ++ ":" ++ subaccount_id
  match hgetC c position_key "is_long" with
  | none => (c, [])
  | some vLong =>
    let is_long := (valParseB vLong).getD false
    match hgetC c position_key "quantity" with
    | none => (c, [])
    | some vQ =>
      let quantity := (valParseQ vQ).getD 0
      match hgetC c position_key "entry_price" with
      | none => (c, [])
      | some vE =>
        let entry_price := (valParseQ vE).getD 0
        match hgetC c position_key "margin" with
        | none => (c, [])
        | some vM =>
          let margin := (valParseQ vM).getD 0
          let cumulative_funding_entry :=
            ((hgetC c position_key "cumulative_funding_entry").bind valParseQ).getD 0
          if quantity ≤ 0 ∨ entry_price ≤ 0 ∨ margin ≤ 0 then (c, [])
          else
            let liquidation_price := Compute.calculate_liquidation_price is_long
              entry_price margin quantity maintenance_margin_ratio
              market_cumulative_funding cumulative_funding_entry
            let is_liq := Compute.is_liquidatable is_long liquidation_price mark_price
            let ops : List CacheOp :=
              [CacheOp.hset position_key "liquidation_price" (Val.q liquidation_price),
               CacheOp.hset position_key "is_liquidatable" (Val.b is_liq)] ++
              (if is_liq then
                [CacheOp.sadd "liquidatable_positions" (market_id ++ ":" ++ subaccount_id),
                 CacheOp.publish "liquidation_alerts"]
               else
                [CacheOp.srem "liquidatable_positions" (market_id ++ ":" ++ subaccount_id)])
            (applyOps c ops, ops)

/-- The loop over the members of positions:market:{id}. -/
def recalcLoop (c : Cache) (market_id : String)
    (maintenance_margin_ratio market_cumulative_funding mark_price : ℚ) :
    List String → Cache × List CacheOp
  | [] => (c, [])
  | sub :: rest =>
    let r := recalcPosition c market_id sub maintenance_margin_ratio
      market_cumulative_funding mark_price
    let k := recalcLoop r.1 market_id maintenance_margin_ratio
      market_cumulative_funding mark_price rest
    (k.1, r.2 ++ k.2)

/-- Recompute liquidation data for every position of a market. -/
def positionRecalcLoop (c : Cache) (market_id : String)
    (maintenance_margin_ratio market_cumulative_funding mark_price : ℚ) :
    Cache × List CacheOp :=
  recalcLoop c market_id maintenance_margin_ratio market_cumulative_funding
    mark_price (smembersC c ("positions:market:" ++ market_id))

/-- redis_consumer process_derivative_market: store the market record
(raw decimal strings for mark price and maintenance margin ratio, the
parsed but unscaled cumulative funding), remove the id from the pending
set, transition to the others phase and drain the deferred queue when the
pending set empties, then recompute every position of the market.  Each
returned operation is tagged with the phase the sink was in when issuing
it. -/
def processDerivativeMarket (s : SinkState) (market : DerivativeMarketPayloadC)
    (block_height timestamp : Nat) : SinkState × List TOp :=
  let p0 := s.phase
  let cumulative_funding := (parseDec market.cumulative_funding).getD 0
  let mark_price := (parseDec market.mark_price).getD 0
  let maintenance_margin_ratio := (parseDec market.maintenance_margin_ratio).getD (1/20)
  let key := "market:derivative:" ++ market.market_id
  let ops1 : List CacheOp :=
    [CacheOp.hset key "ticker" (Val.s market.ticker),
     CacheOp.hset key "mark_price" (Val.s market.mark_price),
     CacheOp.hset key "maintenance_margin_ratio" (Val.s market.maintenance_margin_ratio),
     CacheOp.hset key "cumulative_funding" (Val.q cumulative_funding),
     CacheOp.hset key "block_height" (Val.n block_height),
     CacheOp.hset key "timestamp" (Val.n timestamp),
     CacheOp.hset key "status" (Val.s market.status),
     CacheOp.sadd "markets:derivative" market.market_id]
  let c1 := applyOps s.cache ops1
  let pending1 := s.market_ids.erase market.market_id
  if pending1.isEmpty then
    let cReady := applyOp c1 (CacheOp.setStr "markets_ready" "true")
    let drained := processQueuedMessages cReady s.deferred_messages
    let loop := positionRecalcLoop drained.1 market.market_id
      maintenance_margin_ratio cumulative_funding mark_price
    (⟨ProcessingPhase.others, [], pending1, loop.1⟩,
     ops1.map (fun op => (p0, op)) ++
     (CacheOp.setStr "markets_ready" "true" :: drained.2).map
       (fun op => (ProcessingPhase.others, op)) ++
     loop.2.map (fun op => (ProcessingPhase.others, op)))
  else
    let loop := positionRecalcLoop c1 market.market_id
      maintenance_margin_ratio cumulative_funding mark_price
    (⟨p0, s.deferred_messages, pending1, loop.1⟩,
     ops1.map (fun op => (p0, op)) ++ loop.2.map (fun op => (p0, op)))

/-- HashSet insert for the pending market registration. -/
def insertId (ids : List String) (id : String) : List String :=
  if ids.contains id then ids else ids ++ [id]

/-- Register every market id of a batch in the pending set. -/
def registerMarkets (ids : List String) : List DerivativeMarketPayloadC → List String
  | [] => ids
  | m :: rest => registerMarkets (insertId ids m.market_id) rest

/-- The per-batch loop over markets of one DerivativeMarket envelope. -/
def marketsLoop (s : SinkState) (block_height timestamp : Nat) :
    List DerivativeMarketPayloadC → SinkState × List TOp
  | [] => (s, [])
  | m :: rest =>
    let r := processDerivativeMarket s m block_height timestamp
    let k := marketsLoop r.1 block_height timestamp rest
    (k.1, r.2 ++ k.2)

/-- redis_consumer process_message: markets are processed in any phase
(after registering the whole batch as pending); any other envelope is
deferred during the markets phase and processed immediately afterwards. -/
def processMessage (s : SinkState) (message : KafkaMessageC) :
    SinkState × List TOp :=
  let phase := s.phase
  if message.message_type = Grpc.MessageType.DerivativeMarket then
    match message.payload with
    | KafkaPayloadC.DerivativeMarkets markets =>
      let s1 : SinkState :=
        ⟨s.phase, s.deferred_messages, registerMarkets s.market_ids markets, s.cache⟩
      marketsLoop s1 message.block_height message.block_time markets
    | _ => (s, [])
  else
    match phase with
    | ProcessingPhase.markets =>
      (⟨s.phase, s.deferred_messages ++ [message], s.market_ids, s.cache⟩, [])
    | ProcessingPhase.others =>
      let r := processNonMarketMessage s.cache message
      (⟨s.phase, s.deferred_messages, s.market_ids, r.1⟩,
       r.2.map (fun op => (phase, op)))

/-- A trajectory of the cache sink over a list of consumed envelopes. -/
def runMessages (s : SinkState) : List KafkaMessageC → SinkState × List TOp
  | [] => (s, [])
  | m :: rest =>
    let r := processMessage s m
    let k := runMessages r.1 rest
    (k.1, r.2 ++ k.2)

/-- market_preloader scale factor 1e24 for price-like values. -/
def PRICE_DECIMAL : ℚ := 1000000000000000000000000

/-- market_preloader scale factor 1e18 for quantity-like and ratio-like
values. -/
def QUANTITY_DECIMAL : ℚ := 1000000000000000000

/-- market_preloader process_derivative_market: unlike the cache sink it
divides the parsed values by the scale factors before storing them (all
three numeric fields are stored as numbers, not raw strings), then runs
the same per-position recomputation loop. -/
def preloaderProcessDerivativeMarket (c : Cache) (market : DerivativeMarketPayloadC)
    (block_height timestamp : Nat) : Cache × List CacheOp :=
  let cumulative_funding := (parseDec market.cumulative_funding).getD 0 / PRICE_DECIMAL
  let mark_price := (parseDec market.mark_price).getD 0 / PRICE_DECIMAL
  let maintenance_margin_ratio :=
    (parseDec market.maintenance_margin_ratio).getD 0 / QUANTITY_DECIMAL
  let key := "market:derivative:" ++ market.market_id
  let ops1 : List CacheOp :=
    [CacheOp.hset key "ticker" (Val.s market.ticker),
     CacheOp.hset key "mark_price" (Val.q mark_price),
     CacheOp.hset key "maintenance_margin_ratio" (Val.q maintenance_margin_ratio),
     CacheOp.hset key "cumulative_funding" (Val.q cumulative_funding),
     CacheOp.hset key "block_height" (Val.n block_height),
     CacheOp.hset key "timestamp" (Val.n timestamp),
     CacheOp.hset key "status" (Val.s market.status),
     CacheOp.sadd "markets:derivative" market.market_id]
  let c1 := applyOps c ops1
  let loop := positionRecalcLoop c1 market.market_id maintenance_margin_ratio
    cumulative_funding mark_price
  (loop.1, ops1 ++ loop.2)

/-- A concrete raw-chain market record: maintenance margin ratio
5e16 (scaled 1/20), mark price 1e26 (scaled 100), cumulative funding
2e24 (scaled 2). -/
def sampleMarketC : DerivativeMarketPayloadC :=
  ⟨"m1", "INJ/USDT", "50000000000000000", "Active",
   "100000000000000000000000000", "2000000000000000000000000"⟩

/-- A DerivativeMarket envelope carrying the sample market. -/
def sampleMarketMsg : KafkaMessageC :=
  ⟨Grpc.MessageType.DerivativeMarket, 12, 34,
   KafkaPayloadC.DerivativeMarkets [sampleMarketC]⟩

/-- An ExchangePosition envelope for the sample market. -/
def samplePositionMsg : KafkaMessageC :=
  ⟨Grpc.MessageType.ExchangePosition, 13, 35,
   KafkaPayloadC.ExchangePositions [⟨"m1", "s1", true, "1", "100", "10", "0"⟩]⟩

/-- Is the envelope a DerivativeMarket batch with at least one market? -/
def isMarketBatch (m : KafkaMessageC) : Bool :=
  match m.message_type, m.payload with
  | Grpc.MessageType.DerivativeMarket, KafkaPayloadC.DerivativeMarkets l => !l.isEmpty
  | _, _ => false

/-- The trajectory invariant of the phase machine: the pending set is
empty between envelopes, and once in the Others phase the deferred queue
is empty and markets_ready is persisted as the string true. -/
def Inv9 (s : SinkState) : Prop :=
  s.market_ids = [] ∧
  (s.phase = ProcessingPhase.others →
    s.deferred_messages = [] ∧ strsGet s.cache "markets_ready" = some "true")

/-- All positions:market sets of the store are empty. -/
def PosFree (c : Cache) : Prop :=
  ∀ mid : String, smembersC c ("positions:market:" ++ mid) = []

end Redis

/-- C2: calculate_liquidation_price returns 0 on any non-positive
quantity, entry price or maintenance margin ratio, and otherwise returns
(entry - unit_margin)/(1 - mmr) for a long and (entry + unit_margin)/(1 + mmr)
for a short, with unit_margin = adjusted_margin/quantity and adjusted margin
the funding-adjusted margin from the specification. -/
theorem C2_liquidation_price_formula (is_long : Bool)
    (entry_price margin quantity mmr market_funding entry_funding : ℚ) :
    (quantity ≤ 0 ∨ entry_price ≤ 0 ∨ mmr ≤ 0 →
      Compute.calculate_liquidation_price is_long entry_price margin quantity
        mmr market_funding entry_funding = 0) ∧
    (0 < quantity → 0 < entry_price → 0 < mmr →
      Compute.calculate_liquidation_price is_long entry_price margin quantity
        mmr market_funding entry_funding =
      (let adjusted_margin :=
        if is_long then margin - quantity * (market_funding - entry_funding)
        else margin + quantity * (market_funding - entry_funding)
       let unit_margin := adjusted_margin / quantity
       if is_long then (entry_price - unit_margin) / (1 - mmr)
       else (entry_price + unit_margin) / (1 + mmr))) := by
  constructor
  · intro h
    simp only [Compute.calculate_liquidation_price, if_pos h]
  · intro hq he hm
    have hcond : ¬ (quantity ≤ 0 ∨ entry_price ≤ 0 ∨ mmr ≤ 0) := by
      push_neg
      exact ⟨hq, he, hm⟩
    simp only [Compute.calculate_liquidation_price, if_neg hcond]

/-- Witness for C2 at a concrete input: a long with entry 100, margin 10,
quantity 1, mmr 1/20 and zero funding has liquidation price
(100 - 10)/(1 - 1/20) = 1800/19. -/
theorem C2_liquidation_price_formula_witness :
    Compute.calculate_liquidation_price true 100 10 1 (1/20) 0 0 = 1800/19 := by
  have h := (C2_liquidation_price_formula true 100 10 1 (1/20) 0 0).2
    (by norm_num) (by norm_num) (by norm_num)
  rw [h]
  norm_num

/-- C5 counterexample: the claim fails for short positions.  With
mmr = 0 the computed liquidation price is 0, but a short position with
liquidation price 0 and mark price 1 > 0 IS flagged liquidatable
(the short rule mark_price ≥ liquidation_price holds at 1 ≥ 0). -/
theorem C5_counterexample :
    Compute.calculate_liquidation_price false 100 10 1 0 0 0 = 0 ∧
    Compute.is_liquidatable false
      (Compute.calculate_liquidation_price false 100 10 1 0 0 0) 1 = true := by
  constructor
  · simp [Compute.calculate_liquidation_price]
  · simp [Compute.calculate_liquidation_price, Compute.is_liquidatable]

/-- C5 amended: with mmr = 0 the computed liquidation price is 0 for both
long and short positions; with mark_price > 0 a long position is then not
flagged liquidatable, but a short position is flagged liquidatable. -/
theorem C5_zero_mmr_amended (is_long : Bool)
    (entry_price margin quantity market_funding entry_funding mark_price : ℚ) :
    Compute.calculate_liquidation_price is_long entry_price margin quantity 0
      market_funding entry_funding = 0 ∧
    (0 < mark_price →
      Compute.is_liquidatable true 0 mark_price = false ∧
      Compute.is_liquidatable false 0 mark_price = true) := by
  refine ⟨?_, ?_⟩
  · simp [Compute.calculate_liquidation_price]
  · intro h
    constructor
    · simp [Compute.is_liquidatable]
      linarith
    · simp [Compute.is_liquidatable]
      linarith

/-- Witness for the amended C5 at a concrete input. -/
theorem C5_zero_mmr_amended_witness :
    Compute.calculate_liquidation_price true 100 10 1 0 0 0 = 0 ∧
    Compute.is_liquidatable true 0 7 = false ∧
    Compute.is_liquidatable false 0 7 = true := by
  have h := C5_zero_mmr_amended true 100 10 1 0 0 7
  exact ⟨h.1, (h.2 (by norm_num)).1, (h.2 (by norm_num)).2⟩

/-- Helper: the filtering loop keeps exactly the messages at or above the
snapshot height, in order, and (when the running tip is at least the
snapshot) ends at the max of the running tip and all input heights. -/
theorem Grpc.filter_current_spec (latest_block : Nat) :
    ∀ (ms : List Grpc.KafkaMessage) (tip : Nat), latest_block ≤ tip →
      (Grpc.filter_current latest_block ms tip).1
          = ms.filter (fun m => decide (latest_block ≤ m.block_height)) ∧
      (Grpc.filter_current latest_block ms tip).2
          = ms.foldl (fun t m => max t m.block_height) tip := by
  intro ms
  induction ms with
  | nil => intro tip h; simp [Grpc.filter_current]
  | cons m ms ih =>
    intro tip h
    rcases Nat.lt_trichotomy latest_block m.block_height with hlt | heq | hgt
    · have h1 : m.block_height > latest_block := hlt
      have hu : Grpc.update_latest_block tip m.block_height = max tip m.block_height := by
        simp only [Grpc.update_latest_block, Nat.max_def]
        split <;> split <;> omega
      obtain ⟨ih1, ih2⟩ := ih (max tip m.block_height) (le_trans h (le_max_left _ _))
      have hdec : decide (latest_block ≤ m.block_height) = true := by
        simpa using Nat.le_of_lt hlt
      constructor
      · simp only [Grpc.filter_current, if_pos h1, hu, ih1, List.filter_cons, hdec,
          if_true]
      · simp only [Grpc.filter_current, if_pos h1, hu, ih2, List.foldl_cons]
    · have h1 : ¬ m.block_height > latest_block := by omega
      have hbeq : (m.block_height == latest_block) = true := by
        simp [heq]
      have hdec : decide (latest_block ≤ m.block_height) = true := by
        simpa using Nat.le_of_eq heq
      have hmax : max tip m.block_height = tip := by omega
      obtain ⟨ih1, ih2⟩ := ih tip h
      constructor
      · simp only [Grpc.filter_current, if_neg h1, hbeq, if_true, ih1,
          List.filter_cons, hdec]
      · simp only [Grpc.filter_current, if_neg h1, hbeq, if_true, ih2,
          List.foldl_cons, hmax]
    · have h1 : ¬ m.block_height > latest_block := by omega
      have hbeq : (m.block_height == latest_block) = false := by
        simp
        omega
      have hdec : decide (latest_block ≤ m.block_height) = false := by
        simp
        omega
      have hmax : max tip m.block_height = tip := by omega
      obtain ⟨ih1, ih2⟩ := ih tip h
      constructor
      · simp only [Grpc.filter_current, if_neg h1, hbeq, Bool.false_eq_true,
          if_false, ih1, List.filter_cons, hdec]
      · simp only [Grpc.filter_current, if_neg h1, hbeq, Bool.false_eq_true,
          if_false, ih2, List.foldl_cons, hmax]

/-- C7: send_batch_current_only filters the input to records with
block_height at or above the tracked tip, submits the survivors in input
order, and leaves the tip at the maximum of its old value and every input
height; in the concrete scenario tip 1000 with heights 999, 1000, 1001
exactly two records are emitted and the final tip is 1001. -/
theorem C7_send_batch_current_only (tip : Nat) (messages : List Grpc.KafkaMessage) :
    (Grpc.send_batch_current_only tip messages).1
        = messages.filter (fun m => decide (tip ≤ m.block_height)) ∧
    (Grpc.send_batch_current_only tip messages).2
        = messages.foldl (fun t m => max t m.block_height) tip ∧
    (Grpc.send_batch_current_only 1000
        [Grpc.mkHeightMsg 999, Grpc.mkHeightMsg 1000, Grpc.mkHeightMsg 1001]).1.length = 2 ∧
    (Grpc.send_batch_current_only 1000
        [Grpc.mkHeightMsg 999, Grpc.mkHeightMsg 1000, Grpc.mkHeightMsg 1001]).2 = 1001 := by
  have h := Grpc.filter_current_spec tip messages tip le_rfl
  exact ⟨h.1, h.2, by decide, by decide⟩

/-- C8 counterexample: with tracked tip 1000 and input heights 1001 then
1000, the record at height 1000 survives the filter (it equals the call
start snapshot) although the tip has already advanced to 1001 by the time
the batch is submitted, so an emitted record has block_height strictly
below the producer's maximum seen height at emit time. -/
theorem C8_counterexample :
    Grpc.mkHeightMsg 1000 ∈
      (Grpc.send_batch_current_only 1000
        [Grpc.mkHeightMsg 1001, Grpc.mkHeightMsg 1000]).1 ∧
    (Grpc.send_batch_current_only 1000
        [Grpc.mkHeightMsg 1001, Grpc.mkHeightMsg 1000]).2 = 1001 ∧
    (Grpc.mkHeightMsg 1000).block_height <
      (Grpc.send_batch_current_only 1000
        [Grpc.mkHeightMsg 1001, Grpc.mkHeightMsg 1000]).2 := by
  refine ⟨?_, by decide, by decide⟩
  decide

/-- C8 amended: in current-only mode every record emitted to the broker
has block_height at or above the producer's tracked tip as of the start of
the call (the snapshot the filter runs against), though not necessarily at
or above the tip at the moment of emission. -/
theorem C8_emitted_at_or_above_snapshot (tip : Nat)
    (messages : List Grpc.KafkaMessage) (m : Grpc.KafkaMessage)
    (hm : m ∈ (Grpc.send_batch_current_only tip messages).1) :
    tip ≤ m.block_height := by
  have h := (Grpc.filter_current_spec tip messages tip le_rfl).1
  rw [Grpc.send_batch_current_only] at hm
  rw [h] at hm
  have := List.of_mem_filter hm
  simpa using this

/-- Witness for the amended C8 at a concrete input. -/
theorem C8_emitted_at_or_above_snapshot_witness :
    1000 ≤ (Grpc.mkHeightMsg 1001).block_height :=
  C8_emitted_at_or_above_snapshot 1000 [Grpc.mkHeightMsg 1001]
    (Grpc.mkHeightMsg 1001) (by decide)

/-- C4: evaluation of the streaming loop at the failing input.  With the
producer tip at 5, a stream that yields a receive error followed by a
perfectly processable item at height 6 makes the loop stop at the error:
nothing is emitted, the later item is never consumed, and the task ends
(the surrounding function then returns Ok).  The same item without the
preceding error is processed and emitted.  There is no Reconnecting
transition and no backoff anywhere in the loop. -/
theorem C4_recv_error_terminates_loop :
    Grpc.stream_and_process 5 [Grpc.StreamEvent.errItem,
        Grpc.StreamEvent.item Grpc.sampleResponse6]
      = ([], 5, Grpc.ExitReason.streamError) ∧
    Grpc.stream_and_process 5 [Grpc.StreamEvent.item Grpc.sampleResponse6]
      = (Grpc.kafkaMessagesOfStreamResponse Grpc.sampleResponse6, 6,
         Grpc.ExitReason.streamEnd) ∧
    (Grpc.kafkaMessagesOfStreamResponse Grpc.sampleResponse6).length = 1 := by
  refine ⟨rfl, ?_, rfl⟩
  decide

/-- Helper: when every second-fetch market has a proto body and a
successful orderbook fetch, the orderbook accumulation keeps one entry per
market. -/
theorem Grpc.collectOrderbooks_length :
    ∀ pairs : List (Grpc.FullDerivativeMarket ×
        Option Grpc.QueryFullDerivativeOrderbookResponse),
      (∀ x ∈ pairs, x.1.market.isSome ∧ x.2.isSome) →
      (Grpc.collectOrderbooks pairs).length = pairs.length := by
  intro pairs
  induction pairs with
  | nil => intro _; rfl
  | cons p rest ih =>
    intro h
    obtain ⟨h1, h2⟩ := h p (List.mem_cons_self p rest)
    obtain ⟨md, hmd⟩ := Option.isSome_iff_exists.mp h1
    obtain ⟨ob, hob⟩ := Option.isSome_iff_exists.mp h2
    have := ih (fun x hx => h x (List.mem_cons_of_mem p hx))
    cases p with
    | mk pm pob =>
      simp only at hmd hob
      simp [Grpc.collectOrderbooks, hmd, hob, this]

/-- C10: a heartbeat tick whose status query returns height H, whose two
market fetches succeed and agree on N ≥ 1 markets, whose positions fetch
succeeds with M ≥ 1 positions, and whose per-market orderbook fetches all
succeed, hands the producer exactly three envelopes: one DerivativeMarket
list of length N, one ExchangePosition list of length M, and one L3
orderbook list of length N, each tagged with block height H; when the
producer tip does not exceed H, all three also survive the stale-block
filter. -/
theorem C10_heartbeat_three_envelopes (tip : Nat) (f : Grpc.TickFetches) (H : Nat)
    (ms : List Grpc.FullDerivativeMarket) (ps : List Grpc.DerivativePosition)
    (obs : List (Grpc.FullDerivativeMarket ×
        Option Grpc.QueryFullDerivativeOrderbookResponse))
    (hH : f.height = some H)
    (hm : f.markets1 = some ms) (hm0 : ms ≠ [])
    (hp : f.positions = some ps) (hp0 : ps ≠ [])
    (ho : f.markets2 = some obs) (hfst : obs.map Prod.fst = ms)
    (hok : ∀ x ∈ obs, x.1.market.isSome ∧ x.2.isSome) :
    ((Grpc.heartbeat_tick tip f).handed.length = 3) ∧
    ((Grpc.heartbeat_tick tip f).handed.map Grpc.KafkaMessage.message_type
      = [Grpc.MessageType.DerivativeMarket, Grpc.MessageType.ExchangePosition,
         Grpc.MessageType.DerivativeL3Orderbook]) ∧
    (∀ m ∈ (Grpc.heartbeat_tick tip f).handed, m.block_height = H) ∧
    ((Grpc.heartbeat_tick tip f).handed.map (fun m => Grpc.payloadLength m.payload)
      = [ms.length, ps.length, ms.length]) ∧
    (tip ≤ H →
      (Grpc.heartbeat_tick tip f).emitted = (Grpc.heartbeat_tick tip f).handed) := by
  have hmse : ms.isEmpty = false := by
    cases ms with
    | nil => exact absurd rfl hm0
    | cons a l => rfl
  have hpse : ps.isEmpty = false := by
    cases ps with
    | nil => exact absurd rfl hp0
    | cons a l => rfl
  have hoblen : (Grpc.collectOrderbooks obs).length = ms.length := by
    rw [Grpc.collectOrderbooks_length obs hok, ← hfst, List.length_map]
  have hobse : (Grpc.collectOrderbooks obs).isEmpty = false := by
    cases hco : Grpc.collectOrderbooks obs with
    | nil =>
      rw [hco] at hoblen
      cases ms with
      | nil => exact absurd rfl hm0
      | cons a l => simp at hoblen
    | cons a l => rfl
  refine ⟨?_, ?_, ?_, ?_, ?_⟩
  · simp [Grpc.heartbeat_tick, hH, hm, hp, ho, hmse, hpse, hobse]
  · simp [Grpc.heartbeat_tick, hH, hm, hp, ho, hmse, hpse, hobse]
  · intro m hmem
    simp [Grpc.heartbeat_tick, hH, hm, hp, ho, hmse, hpse, hobse] at hmem
    rcases hmem with h | h | h <;> rw [h]
  · simp [Grpc.heartbeat_tick, hH, hm, hp, ho, hmse, hpse, hobse,
      Grpc.payloadLength, hoblen]
  · intro hle
    have htip : Grpc.update_latest_block tip H = H := by
      simp only [Grpc.update_latest_block]
      split <;> omega
    simp [Grpc.heartbeat_tick, hH, hm, hp, ho, hmse, hpse, hobse, htip,
      Grpc.send_batch_current_only, Grpc.filter_current]

/-- Witness for C10 at a concrete tick: one market, one position, one
successful orderbook fetch, chain height 10, producer tip 3. -/
theorem C10_heartbeat_three_envelopes_witness :
    ((Grpc.heartbeat_tick 3 Grpc.sampleTick).handed.length = 3) ∧
    ((Grpc.heartbeat_tick 3 Grpc.sampleTick).emitted
      = (Grpc.heartbeat_tick 3 Grpc.sampleTick).handed) := by
  have h := C10_heartbeat_three_envelopes 3 Grpc.sampleTick 10
    [Grpc.sampleFullMarket] [Grpc.sampleDerivativePosition]
    [(Grpc.sampleFullMarket, some Grpc.sampleOrderbookResp)]
    rfl rfl (by decide) rfl (by decide) rfl rfl
    (by intro x hx; cases hx with
        | head => exact ⟨rfl, rfl⟩
        | tail _ h2 => cases h2)
  exact ⟨h.1, h.2.2.2.2 (by omega)⟩

/-- Helper: parsing a serialized list element by element recovers the
list, given the per-element round trip. -/
theorem Grpc.mapOptionM_map {α β : Type} (parse : β → Option α) (ser : α → β)
    (h : ∀ x, parse (ser x) = some x) :
    ∀ l : List α, Grpc.mapOptionM parse (l.map ser) = some l := by
  intro l
  induction l with
  | nil => rfl
  | cons a t ih => simp [List.map_cons, Grpc.mapOptionM, h, ih]

theorem Grpc.parseCoinPayload_toJson (x : Grpc.CoinPayload) :
    Grpc.parseCoinPayload x.toJson = some x := by
  cases x
  rfl

theorem Grpc.parseBankBalancePayload_toJson (x : Grpc.BankBalancePayload) :
    Grpc.parseBankBalancePayload x.toJson = some x := by
  cases x with
  | mk a b =>
    simp [Grpc.parseBankBalancePayload, Grpc.BankBalancePayload.toJson,
      Grpc.Json.getField, Grpc.lookupField, Grpc.Json.asStr, Grpc.Json.asArr,
      Grpc.mapOptionM_map Grpc.parseCoinPayload Grpc.CoinPayload.toJson
        Grpc.parseCoinPayload_toJson]

theorem Grpc.parseSubaccountDepositPayload_toJson (x : Grpc.SubaccountDepositPayload) :
    Grpc.parseSubaccountDepositPayload x.toJson = some x := by
  cases x
  rfl

theorem Grpc.parseSpotTradePayload_toJson (x : Grpc.SpotTradePayload) :
    Grpc.parseSpotTradePayload x.toJson = some x := by
  cases x
  rfl

theorem Grpc.parsePositionDeltaPayload_toJson (x : Grpc.PositionDeltaPayload) :
    Grpc.parsePositionDeltaPayload x.toJson = some x := by
  cases x
  rfl

theorem Grpc.parseDerivativeTradePayload_toJson (x : Grpc.DerivativeTradePayload) :
    Grpc.parseDerivativeTradePayload x.toJson = some x := by
  cases x with
  | mk a b c d e f g h i jj k =>
    simp [Grpc.parseDerivativeTradePayload, Grpc.DerivativeTradePayload.toJson,
      Grpc.Json.getField, Grpc.lookupField, Grpc.Json.asStr, Grpc.Json.asBool,
      Grpc.parsePositionDeltaPayload_toJson e]

theorem Grpc.parseSpotOrderPayload_toJson (x : Grpc.SpotOrderPayload) :
    Grpc.parseSpotOrderPayload x.toJson = some x := by
  cases x
  rfl

theorem Grpc.parseDerivativeOrderPayload_toJson (x : Grpc.DerivativeOrderPayload) :
    Grpc.parseDerivativeOrderPayload x.toJson = some x := by
  cases x
  rfl

theorem Grpc.parsePriceLevelPayload_toJson (x : Grpc.PriceLevelPayload) :
    Grpc.parsePriceLevelPayload x.toJson = some x := by
  cases x
  rfl

theorem Grpc.parseOrderbookPayload_toJson (x : Grpc.OrderbookPayload) :
    Grpc.parseOrderbookPayload x.toJson = some x := by
  cases x with
  | mk a b c d =>
    simp [Grpc.parseOrderbookPayload, Grpc.OrderbookPayload.toJson,
      Grpc.Json.getField, Grpc.lookupField, Grpc.Json.asStr, Grpc.Json.asArr,
      Grpc.Json.asNat, Grpc.mapOptionM_map Grpc.parsePriceLevelPayload
        Grpc.PriceLevelPayload.toJson Grpc.parsePriceLevelPayload_toJson]

theorem Grpc.parsePositionPayload_toJson (x : Grpc.PositionPayload) :
    Grpc.parsePositionPayload x.toJson = some x := by
  cases x
  rfl

theorem Grpc.parseOraclePricePayload_toJson (x : Grpc.OraclePricePayload) :
    Grpc.parseOraclePricePayload x.toJson = some x := by
  cases x
  rfl

theorem Grpc.parseDerivativeMarketPayload_toJson (x : Grpc.DerivativeMarketPayload) :
    Grpc.parseDerivativeMarketPayload x.toJson = some x := by
  cases x
  rfl

theorem Grpc.parseExchangeBalancePayload_toJson (x : Grpc.ExchangeBalancePayload) :
    Grpc.parseExchangeBalancePayload x.toJson = some x := by
  cases x
  rfl

theorem Grpc.parseTrimmedLimitOrderPayload_toJson (x : Grpc.TrimmedLimitOrderPayload) :
    Grpc.parseTrimmedLimitOrderPayload x.toJson = some x := by
  cases x
  rfl

theorem Grpc.parseOrderbookL3Payload_toJson (x : Grpc.OrderbookL3Payload) :
    Grpc.parseOrderbookL3Payload x.toJson = some x := by
  cases x with
  | mk a b c d =>
    simp [Grpc.parseOrderbookL3Payload, Grpc.OrderbookL3Payload.toJson,
      Grpc.Json.getField, Grpc.lookupField, Grpc.Json.asStr, Grpc.Json.asArr,
      Grpc.Json.asInt, Grpc.mapOptionM_map Grpc.parseTrimmedLimitOrderPayload
        Grpc.TrimmedLimitOrderPayload.toJson Grpc.parseTrimmedLimitOrderPayload_toJson]

/-- Helper: presence through the untagged orElse chain. -/
theorem Grpc.isSome_orElseF {α : Type} (a : Option α) (b : Unit → Option α) :
    (a.orElse b).isSome = (a.isSome || (b ()).isSome) := by
  cases a <;> rfl

/-- Helper: the untagged attempt of a variant succeeds on that variant's
own serialized list. -/
theorem Grpc.tryVariant_arr {α : Type} (parse : Grpc.Json → Option α)
    (ser : α → Grpc.Json) (mk : List α → Grpc.KafkaPayload)
    (h : ∀ x, parse (ser x) = some x) (v : List α) :
    Grpc.tryVariant parse mk (Grpc.Json.arr (v.map ser)) = some (mk v) := by
  simp [Grpc.tryVariant, Grpc.Json.asArr, Grpc.mapOptionM_map parse ser h v]

/-- Helper: untagged deserialization of a serialized payload always
succeeds (the variant's own attempt succeeds, so the first-match chain
returns some result, though possibly of an earlier variant). -/
theorem Grpc.deserializePayload_isSome (p : Grpc.KafkaPayload) :
    (Grpc.deserializeKafkaPayload (Grpc.serializeKafkaPayload p)).isSome = true := by
  cases p with
  | StreamBankBalances v =>
    simp [Grpc.deserializeKafkaPayload, Grpc.serializeKafkaPayload,
      Grpc.isSome_orElseF,
      Grpc.tryVariant_arr _ _ _ Grpc.parseBankBalancePayload_toJson v]
  | StreamSubaccountDeposits v =>
    simp [Grpc.deserializeKafkaPayload, Grpc.serializeKafkaPayload,
      Grpc.isSome_orElseF,
      Grpc.tryVariant_arr _ _ _ Grpc.parseSubaccountDepositPayload_toJson v]
  | StreamSpotOrderbooks v =>
    simp [Grpc.deserializeKafkaPayload, Grpc.serializeKafkaPayload,
      Grpc.isSome_orElseF,
      Grpc.tryVariant_arr _ _ _ Grpc.parseOrderbookPayload_toJson v]
  | StreamDerivativeOrderbooks v =>
    simp [Grpc.deserializeKafkaPayload, Grpc.serializeKafkaPayload,
      Grpc.isSome_orElseF,
      Grpc.tryVariant_arr _ _ _ Grpc.parseOrderbookPayload_toJson v]
  | StreamPositions v =>
    simp [Grpc.deserializeKafkaPayload, Grpc.serializeKafkaPayload,
      Grpc.isSome_orElseF,
      Grpc.tryVariant_arr _ _ _ Grpc.parsePositionPayload_toJson v]
  | StreamOraclePrices v =>
    simp [Grpc.deserializeKafkaPayload, Grpc.serializeKafkaPayload,
      Grpc.isSome_orElseF,
      Grpc.tryVariant_arr _ _ _ Grpc.parseOraclePricePayload_toJson v]
  | SpotTrades v =>
    simp [Grpc.deserializeKafkaPayload, Grpc.serializeKafkaPayload,
      Grpc.isSome_orElseF,
      Grpc.tryVariant_arr _ _ _ Grpc.parseSpotTradePayload_toJson v]
  | DerivativeTrades v =>
    simp [Grpc.deserializeKafkaPayload, Grpc.serializeKafkaPayload,
      Grpc.isSome_orElseF,
      Grpc.tryVariant_arr _ _ _ Grpc.parseDerivativeTradePayload_toJson v]
  | SpotOrders v =>
    simp [Grpc.deserializeKafkaPayload, Grpc.serializeKafkaPayload,
      Grpc.isSome_orElseF,
      Grpc.tryVariant_arr _ _ _ Grpc.parseSpotOrderPayload_toJson v]
  | DerivativeOrders v =>
    simp [Grpc.deserializeKafkaPayload, Grpc.serializeKafkaPayload,
      Grpc.isSome_orElseF,
      Grpc.tryVariant_arr _ _ _ Grpc.parseDerivativeOrderPayload_toJson v]
  | DerivativeMarkets v =>
    simp [Grpc.deserializeKafkaPayload, Grpc.serializeKafkaPayload,
      Grpc.isSome_orElseF,
      Grpc.tryVariant_arr _ _ _ Grpc.parseDerivativeMarketPayload_toJson v]
  | ExchangePositions v =>
    simp [Grpc.deserializeKafkaPayload, Grpc.serializeKafkaPayload,
      Grpc.isSome_orElseF,
      Grpc.tryVariant_arr _ _ _ Grpc.parsePositionPayload_toJson v]
  | ExchangeBalances v =>
    simp [Grpc.deserializeKafkaPayload, Grpc.serializeKafkaPayload,
      Grpc.isSome_orElseF,
      Grpc.tryVariant_arr _ _ _ Grpc.parseExchangeBalancePayload_toJson v]
  | DerivativeL3Orderbooks v =>
    simp [Grpc.deserializeKafkaPayload, Grpc.serializeKafkaPayload,
      Grpc.isSome_orElseF,
      Grpc.tryVariant_arr _ _ _ Grpc.parseOrderbookL3Payload_toJson v]

/-- Helper: enum tag round trip. -/
theorem Grpc.parseMessageType_serialize (t : Grpc.MessageType) :
    Grpc.parseMessageType (Grpc.serializeMessageType t) = some t := by
  cases t <;> rfl

/-- Helper: a serialized payload is always a bare JSON array. -/
theorem Grpc.serializePayload_isArr (p : Grpc.KafkaPayload) :
    (Grpc.serializeKafkaPayload p).isArr = true := by
  cases p <;> rfl

/-- C1 counterexample: the heartbeat positions envelope (message type
ExchangePosition, payload ExchangePositions with one record) does not
round-trip: the untagged payload comes back as the earlier
identically-shaped StreamPositions variant, and the serialized document's
payload field is the bare list of records, not an object with the variant
tag as its single key. -/
theorem C1_counterexample :
    Grpc.deserializeKafkaMessage (Grpc.serializeKafkaMessage Grpc.exC1)
      = some Grpc.exC1round ∧
    Grpc.exC1round ≠ Grpc.exC1 ∧
    (Grpc.serializeKafkaMessage Grpc.exC1).getField "payload"
      = some (Grpc.Json.arr [Grpc.samplePosition.toJson]) := by
  refine ⟨by decide, by decide, rfl⟩

/-- C1 amended: serializing an envelope and deserializing the resulting
document always succeeds and preserves message_type, block_height and
block_time; the document's payload field is the bare JSON array of the
records (the payload union is untagged, so the single-key tag-object form
does not hold), and the deserialized payload is the first declaration-order
variant matching that array, which for variants shadowed by an earlier
identically-shaped variant differs from the original. -/
theorem C1_roundtrip_amended (m : Grpc.KafkaMessage) :
    ∃ p, Grpc.deserializeKafkaMessage (Grpc.serializeKafkaMessage m)
        = some ⟨m.message_type, m.block_height, m.block_time, p⟩ ∧
      (Grpc.serializeKafkaMessage m).getField "payload"
        = some (Grpc.serializeKafkaPayload m.payload) ∧
      (Grpc.serializeKafkaPayload m.payload).isArr = true := by
  obtain ⟨p, hp⟩ := Option.isSome_iff_exists.mp (Grpc.deserializePayload_isSome m.payload)
  refine ⟨p, ?_, rfl, Grpc.serializePayload_isArr m.payload⟩
  have h1 : (Grpc.serializeKafkaMessage m).getField "message_type"
      = some (Grpc.Json.str (Grpc.serializeMessageType m.message_type)) := rfl
  have h2 : (Grpc.serializeKafkaMessage m).getField "block_height"
      = some (Grpc.Json.num (Int.ofNat m.block_height)) := rfl
  have h3 : (Grpc.serializeKafkaMessage m).getField "block_time"
      = some (Grpc.Json.num (Int.ofNat m.block_time)) := rfl
  have h4 : (Grpc.serializeKafkaMessage m).getField "payload"
      = some (Grpc.serializeKafkaPayload m.payload) := rfl
  simp [Grpc.deserializeKafkaMessage, h1, h2, h3, h4,
    Grpc.Json.asStr, Grpc.Json.asNat, Grpc.parseMessageType_serialize, hp]

/-- C6: evaluation of the cache sink's market handler at a failing input.
For a market whose raw chain strings denote mmr 0.05 (5e16 / 1e18),
mark price 100 (1e26 / 1e24) and cumulative funding 2 (2e24 / 1e24), the
cache sink stores the raw strings for mark_price and
maintenance_margin_ratio and the parsed but unscaled value 2e24 for
cumulative_funding, while the market preloader (the sibling handler for
the same event) stores the scaled values 100, 1/20 and 2 that invariant
I4 requires. -/
theorem C6_raw_values_stored :
    (Redis.hgetC (Redis.processDerivativeMarket Redis.initState
        Redis.sampleMarketC 12 34).1.cache
      "market:derivative:m1" "mark_price"
      = some (Redis.Val.s "100000000000000000000000000")) ∧
    (Redis.hgetC (Redis.processDerivativeMarket Redis.initState
        Redis.sampleMarketC 12 34).1.cache
      "market:derivative:m1" "maintenance_margin_ratio"
      = some (Redis.Val.s "50000000000000000")) ∧
    (Redis.hgetC (Redis.processDerivativeMarket Redis.initState
        Redis.sampleMarketC 12 34).1.cache
      "market:derivative:m1" "cumulative_funding"
      = some (Redis.Val.q 2000000000000000000000000)) ∧
    Redis.Val.s "100000000000000000000000000" ≠ Redis.Val.q 100 ∧
    (Redis.hgetC (Redis.preloaderProcessDerivativeMarket Redis.emptyCache
        Redis.sampleMarketC 12 34).1
      "market:derivative:m1" "mark_price" = some (Redis.Val.q 100)) ∧
    (Redis.hgetC (Redis.preloaderProcessDerivativeMarket Redis.emptyCache
        Redis.sampleMarketC 12 34).1
      "market:derivative:m1" "maintenance_margin_ratio"
      = some (Redis.Val.q (1/20))) ∧
    (Redis.hgetC (Redis.preloaderProcessDerivativeMarket Redis.emptyCache
        Redis.sampleMarketC 12 34).1
      "market:derivative:m1" "cumulative_funding" = some (Redis.Val.q 2)) := by
  have hmark : Redis.parseDec "100000000000000000000000000"
      = some 100000000000000000000000000 := by decide
  have hmmr : Redis.parseDec "50000000000000000" = some 50000000000000000 := by
    decide
  have hcf : Redis.parseDec "2000000000000000000000000"
      = some 2000000000000000000000000 := by decide
  refine ⟨by decide, by decide, by decide, by decide, ?_, ?_, ?_⟩ <;>
    · simp [Redis.preloaderProcessDerivativeMarket, Redis.positionRecalcLoop,
        Redis.recalcLoop, Redis.applyOps, Redis.applyOp, Redis.hsetC, Redis.saddC,
        Redis.smembersC, Redis.assocSet, Redis.assocGet, Redis.hgetC,
        Redis.emptyCache, Redis.sampleMarketC, hmark, hmmr, hcf,
        Redis.PRICE_DECIMAL, Redis.QUANTITY_DECIMAL]
      norm_num

/-- Helper: looking up the key just set returns the new value. -/
theorem Redis.assocGet_assocSet_same {α : Type} (l : List (String × α))
    (k : String) (v : α) :
    Redis.assocGet (Redis.assocSet l k v) k = some v := by
  induction l with
  | nil => simp [Redis.assocSet, Redis.assocGet]
  | cons e rest ih =>
    obtain ⟨k0, v0⟩ := e
    by_cases h : k0 = k
    · subst h
      simp [Redis.assocSet, Redis.assocGet]
    · simp [Redis.assocSet, Redis.assocGet, h, ih]

/-- Helper: setting one key leaves lookups of other keys unchanged. -/
theorem Redis.assocGet_assocSet_ne {α : Type} (l : List (String × α))
    (k k2 : String) (v : α) (h : k ≠ k2) :
    Redis.assocGet (Redis.assocSet l k v) k2 = Redis.assocGet l k2 := by
  induction l with
  | nil => simp [Redis.assocSet, Redis.assocGet, h]
  | cons e rest ih =>
    obtain ⟨k0, v0⟩ := e
    by_cases h0 : k0 = k
    · subst h0
      have h2 : k0 ≠ k2 := h
      simp [Redis.assocSet, Redis.assocGet, h2]
    · by_cases h2 : k0 = k2
      · subst h2
        simp [Redis.assocSet, Redis.assocGet, h0, ih]
      · simp [Redis.assocSet, Redis.assocGet, h0, h2, ih]

/-- Helper: adding to one set leaves the members of other sets unchanged. -/
theorem Redis.smembersC_saddC_ne (c : Redis.Cache) (k m k2 : String)
    (h : k ≠ k2) :
    Redis.smembersC (Redis.saddC c k m) k2 = Redis.smembersC c k2 := by
  simp only [Redis.saddC]
  split
  · rfl
  · simp [Redis.smembersC, Redis.assocGet_assocSet_ne _ _ _ _ h]

/-- Helper: key-glob facts for the keys the market handler writes. -/
theorem Redis.notPos_marketKey (x : String) :
    Redis.strStartsWith ("market:derivative:" ++ x) "position:" = false := by
  simp [Redis.strStartsWith, String.data_append, List.isPrefixOf]

/-- Helper: the markets:derivative set key does not match position:*. -/
theorem Redis.notPos_marketsSet :
    Redis.strStartsWith "markets:derivative" "position:" = false := by
  decide

/-- Helper: the markets:derivative set is not a positions:market set. -/
theorem Redis.markets_ne_posKey (x : String) :
    "markets:derivative" ≠ "positions:market:" ++ x := by
  intro h
  have h2 := congrArg String.data h
  simp [String.data_append] at h2

/-- Helper: PosFree is untouched by hash writes. -/
theorem Redis.posFree_hsetC (c : Redis.Cache) (k f : String) (v : Redis.Val)
    (hc : Redis.PosFree c) : Redis.PosFree (Redis.hsetC c k f v) :=
  fun mid => hc mid

/-- Helper: PosFree is untouched by adding a market id to the market set. -/
theorem Redis.posFree_saddC_markets (c : Redis.Cache) (m : String)
    (hc : Redis.PosFree c) :
    Redis.PosFree (Redis.saddC c "markets:derivative" m) := by
  intro mid
  rw [Redis.smembersC_saddC_ne c _ m _ (Redis.markets_ne_posKey mid)]
  exact hc mid

/-- Helper: when no positions:market set is populated, the per-position
recomputation loop does nothing. -/
theorem Redis.positionRecalcLoop_posFree (c : Redis.Cache)
    (hc : Redis.PosFree c) (mid : String) (mmr cf mk : ℚ) :
    Redis.positionRecalcLoop c mid mmr cf mk = (c, []) := by
  unfold Redis.positionRecalcLoop
  rw [hc mid]
  rfl

/-- Helper: the market handler preserves the markets-phase cache
invariant, and every operation it issues while the phase is markets
mutates only non-position keys. -/
theorem Redis.processDerivativeMarket_inv (s : Redis.SinkState)
    (market : Redis.DerivativeMarketPayloadC) (bh bt : Nat)
    (hInv : s.phase = Redis.ProcessingPhase.markets → Redis.PosFree s.cache) :
    ((Redis.processDerivativeMarket s market bh bt).1.phase
        = Redis.ProcessingPhase.markets →
      Redis.PosFree (Redis.processDerivativeMarket s market bh bt).1.cache) ∧
    (∀ p ∈ (Redis.processDerivativeMarket s market bh bt).2,
      p.1 = Redis.ProcessingPhase.markets →
        Redis.isPositionWrite p.2 = false) := by
  by_cases hpend : (s.market_ids.erase market.market_id).isEmpty
  · constructor
    · intro hph
      simp only [Redis.processDerivativeMarket, hpend, if_true] at hph
      exact absurd hph (by simp)
    · intro p hp hmk
      simp only [Redis.processDerivativeMarket, hpend, if_true,
        List.mem_append, List.mem_map, List.mem_cons] at hp
      rcases hp with (⟨op, hop, rfl⟩ | ⟨op, hop, rfl⟩) | ⟨op, hop, rfl⟩
      · simp only [List.mem_cons, List.not_mem_nil, or_false] at hop
        rcases hop with rfl | rfl | rfl | rfl | rfl | rfl | rfl | rfl <;>
          simp [Redis.isPositionWrite, Redis.CacheOp.targetKey,
            Redis.notPos_marketKey, Redis.notPos_marketsSet]
      · exact absurd hmk (by simp)
      · exact absurd hmk (by simp)
  · by_cases hph : s.phase = Redis.ProcessingPhase.markets
    · have hPF := hInv hph
      have hPF1 : Redis.PosFree (Redis.applyOps s.cache
          [Redis.CacheOp.hset ("market:derivative:" ++ market.market_id) "ticker"
            (Redis.Val.s market.ticker),
           Redis.CacheOp.hset ("market:derivative:" ++ market.market_id) "mark_price"
            (Redis.Val.s market.mark_price),
           Redis.CacheOp.hset ("market:derivative:" ++ market.market_id)
            "maintenance_margin_ratio" (Redis.Val.s market.maintenance_margin_ratio),
           Redis.CacheOp.hset ("market:derivative:" ++ market.market_id)
            "cumulative_funding"
            (Redis.Val.q ((Redis.parseDec market.cumulative_funding).getD 0)),
           Redis.CacheOp.hset ("market:derivative:" ++ market.market_id) "block_height"
            (Redis.Val.n bh),
           Redis.CacheOp.hset ("market:derivative:" ++ market.market_id) "timestamp"
            (Redis.Val.n bt),
           Redis.CacheOp.hset ("market:derivative:" ++ market.market_id) "status"
            (Redis.Val.s market.status),
           Redis.CacheOp.sadd "markets:derivative" market.market_id]) := by
        simp only [Redis.applyOps, List.foldl, Redis.applyOp]
        exact Redis.posFree_saddC_markets _ _
          (Redis.posFree_hsetC _ _ _ _ (Redis.posFree_hsetC _ _ _ _
            (Redis.posFree_hsetC _ _ _ _ (Redis.posFree_hsetC _ _ _ _
              (Redis.posFree_hsetC _ _ _ _ (Redis.posFree_hsetC _ _ _ _
                (Redis.posFree_hsetC _ _ _ _ hPF)))))))
      constructor
      · intro _
        simp only [Redis.processDerivativeMarket, hpend, if_false,
          Bool.false_eq_true]
        simp only [Redis.positionRecalcLoop_posFree _ hPF1 market.market_id]
        exact hPF1
      · intro p hp hmk
        simp only [Redis.processDerivativeMarket, hpend, if_false,
          Bool.false_eq_true,
          Redis.positionRecalcLoop_posFree _ hPF1 market.market_id,
          List.map_nil, List.append_nil, List.mem_map] at hp
        obtain ⟨op, hop, rfl⟩ := hp
        simp only [List.mem_cons, List.not_mem_nil, or_false] at hop
        rcases hop with rfl | rfl | rfl | rfl | rfl | rfl | rfl | rfl <;>
          simp [Redis.isPositionWrite, Redis.CacheOp.targetKey,
            Redis.notPos_marketKey, Redis.notPos_marketsSet]
    · constructor
      · intro hph2
        simp only [Redis.processDerivativeMarket, hpend, if_false,
          Bool.false_eq_true] at hph2
        exact absurd hph2 hph
      · intro p hp hmk
        simp only [Redis.processDerivativeMarket, hpend, if_false,
          Bool.false_eq_true, List.mem_append, List.mem_map] at hp
        rcases hp with ⟨op, hop, rfl⟩ | ⟨op, hop, rfl⟩ <;>
          exact absurd hmk hph

/-- Helper: the market-batch loop preserves the markets-phase cache
invariant and issues no position write while the phase is markets. -/
theorem Redis.marketsLoop_inv (markets : List Redis.DerivativeMarketPayloadC) :
    ∀ (s : Redis.SinkState) (bh bt : Nat),
      (s.phase = Redis.ProcessingPhase.markets → Redis.PosFree s.cache) →
      (((Redis.marketsLoop s bh bt markets).1.phase
          = Redis.ProcessingPhase.markets →
        Redis.PosFree (Redis.marketsLoop s bh bt markets).1.cache) ∧
       ∀ p ∈ (Redis.marketsLoop s bh bt markets).2,
         p.1 = Redis.ProcessingPhase.markets →
           Redis.isPositionWrite p.2 = false) := by
  induction markets with
  | nil =>
    intro s bh bt hInv
    exact ⟨hInv, by simp [Redis.marketsLoop]⟩
  | cons m rest ih =>
    intro s bh bt hInv
    obtain ⟨hr1, hr2⟩ := Redis.processDerivativeMarket_inv s m bh bt hInv
    obtain ⟨hk1, hk2⟩ := ih (Redis.processDerivativeMarket s m bh bt).1 bh bt hr1
    refine ⟨hk1, ?_⟩
    intro p hp hmk
    simp only [Redis.marketsLoop, List.mem_append] at hp
    rcases hp with hp | hp
    · exact hr2 p hp hmk
    · exact hk2 p hp hmk

/-- Helper: one consumed envelope preserves the markets-phase cache
invariant and issues no position write while the phase is markets. -/
theorem Redis.processMessage_inv (s : Redis.SinkState) (m : Redis.KafkaMessageC)
    (hInv : s.phase = Redis.ProcessingPhase.markets → Redis.PosFree s.cache) :
    (((Redis.processMessage s m).1.phase = Redis.ProcessingPhase.markets →
      Redis.PosFree (Redis.processMessage s m).1.cache) ∧
     ∀ p ∈ (Redis.processMessage s m).2,
       p.1 = Redis.ProcessingPhase.markets →
         Redis.isPositionWrite p.2 = false) := by
  by_cases ht : m.message_type = Grpc.MessageType.DerivativeMarket
  · cases hpl : m.payload with
    | DerivativeMarkets markets =>
      have h := Redis.marketsLoop_inv markets
        ⟨s.phase, s.deferred_messages,
         Redis.registerMarkets s.market_ids markets, s.cache⟩
        m.block_height m.block_time hInv
      simpa [Redis.processMessage, ht, hpl] using h
    | ExchangePositions v => exact ⟨by simpa [Redis.processMessage, ht, hpl] using hInv,
        by simp [Redis.processMessage, ht, hpl]⟩
    | StreamPositions v => exact ⟨by simpa [Redis.processMessage, ht, hpl] using hInv,
        by simp [Redis.processMessage, ht, hpl]⟩
    | DerivativeTrades v => exact ⟨by simpa [Redis.processMessage, ht, hpl] using hInv,
        by simp [Redis.processMessage, ht, hpl]⟩
    | StreamDerivativeOrderbooks v =>
      exact ⟨by simpa [Redis.processMessage, ht, hpl] using hInv,
        by simp [Redis.processMessage, ht, hpl]⟩
    | otherPayload => exact ⟨by simpa [Redis.processMessage, ht, hpl] using hInv,
        by simp [Redis.processMessage, ht, hpl]⟩
  · cases hph : s.phase with
    | markets =>
      constructor
      · intro _
        simpa [Redis.processMessage, ht, hph] using hInv hph
      · simp [Redis.processMessage, ht, hph]
    | others =>
      constructor
      · intro h2
        simp [Redis.processMessage, ht, hph] at h2
      · intro p hp hmk
        simp only [Redis.processMessage, ht, hph, if_false, List.mem_map] at hp
        obtain ⟨op, hop, rfl⟩ := hp
        simp at hmk

/-- Helper: a whole trajectory preserves the markets-phase cache
invariant and issues no position write while the phase is markets. -/
theorem Redis.runMessages_inv (msgs : List Redis.KafkaMessageC) :
    ∀ s : Redis.SinkState,
      (s.phase = Redis.ProcessingPhase.markets → Redis.PosFree s.cache) →
      (((Redis.runMessages s msgs).1.phase = Redis.ProcessingPhase.markets →
        Redis.PosFree (Redis.runMessages s msgs).1.cache) ∧
       ∀ p ∈ (Redis.runMessages s msgs).2,
         p.1 = Redis.ProcessingPhase.markets →
           Redis.isPositionWrite p.2 = false) := by
  induction msgs with
  | nil =>
    intro s hInv
    exact ⟨hInv, by simp [Redis.runMessages]⟩
  | cons m rest ih =>
    intro s hInv
    obtain ⟨hr1, hr2⟩ := Redis.processMessage_inv s m hInv
    obtain ⟨hk1, hk2⟩ := ih (Redis.processMessage s m).1 hr1
    refine ⟨hk1, ?_⟩
    intro p hp hmk
    simp only [Redis.runMessages, List.mem_append] at hp
    rcases hp with hp | hp
    · exact hr2 p hp hmk
    · exact hk2 p hp hmk

/-- C3: on any trajectory of the cache sink from a fresh start, every
store operation issued while the processing phase is Markets mutates only
keys outside position:* — non-market envelopes are deferred, and position
fields are first written only after the transition to Others. -/
theorem C3_no_position_write_in_markets_phase (msgs : List Redis.KafkaMessageC)
    (p : Redis.TOp) (hp : p ∈ (Redis.runMessages Redis.initState msgs).2)
    (hph : p.1 = Redis.ProcessingPhase.markets) :
    Redis.isPositionWrite p.2 = false :=
  (Redis.runMessages_inv msgs Redis.initState (fun _ _ => rfl)).2 p hp hph

/-- Witness for C3 at a concrete trajectory: the first operation the
sample market batch issues in the Markets phase is the ticker write of the
market record, and it is not a position write. -/
theorem C3_no_position_write_in_markets_phase_witness :
    Redis.isPositionWrite (Redis.CacheOp.hset "market:derivative:m1" "ticker"
      (Redis.Val.s "INJ/USDT")) = false :=
  C3_no_position_write_in_markets_phase [Redis.sampleMarketMsg]
    (Redis.ProcessingPhase.markets,
     Redis.CacheOp.hset "market:derivative:m1" "ticker" (Redis.Val.s "INJ/USDT"))
    (by decide) rfl

/-- Helper: any operation other than a plain-string set leaves the
plain-string table unchanged. -/
theorem Redis.applyOp_strs (c : Redis.Cache) (op : Redis.CacheOp)
    (h : ∀ k v, op ≠ Redis.CacheOp.setStr k v) :
    (Redis.applyOp c op).strs = c.strs := by
  cases op with
  | hset k f v => rfl
  | sadd k m =>
    simp only [Redis.applyOp, Redis.saddC]
    split <;> rfl
  | srem k m => rfl
  | setStr k v => exact absurd rfl (h k v)
  | publish ch => rfl

/-- Helper: a batch of non-setStr operations leaves the plain-string
table unchanged. -/
theorem Redis.applyOps_strs (ops : List Redis.CacheOp) :
    ∀ c : Redis.Cache, (∀ op ∈ ops, ∀ k v, op ≠ Redis.CacheOp.setStr k v) →
      (Redis.applyOps c ops).strs = c.strs := by
  induction ops with
  | nil => intro c _; rfl
  | cons op rest ih =>
    intro c h
    have h1 := h op (List.mem_cons_self op rest)
    have h2 : ∀ o ∈ rest, ∀ k v, o ≠ Redis.CacheOp.setStr k v :=
      fun o ho => h o (List.mem_cons_of_mem op ho)
    calc (Redis.applyOps c (op :: rest)).strs
        = (Redis.applyOps (Redis.applyOp c op) rest).strs := rfl
      _ = (Redis.applyOp c op).strs := ih (Redis.applyOp c op) h2
      _ = c.strs := Redis.applyOp_strs c op h1

/-- Helper: storing a position mutates no plain-string key. -/
theorem Redis.processPosition_strs (c : Redis.Cache) (p : Grpc.PositionPayload)
    (bh bt : Nat) : (Redis.processPosition c p bh bt).1.strs = c.strs := by
  simp only [Redis.processPosition]
  split
  · rfl
  · split
    · rfl
    · apply Redis.applyOps_strs
      intro op hop k v
      simp only [List.mem_append, List.mem_cons, List.not_mem_nil, or_false] at hop
      rcases hop with hop | hop
      · rcases hop with rfl | rfl | rfl | rfl | rfl | rfl | rfl | rfl | rfl | rfl | rfl <;>
          simp
      · split at hop <;>
          · simp only [List.mem_cons, List.not_mem_nil, or_false] at hop
            rcases hop with rfl | rfl <;> simp

/-- Helper: the non-market path mutates no plain-string key. -/
theorem Redis.processNonMarketMessage_strs (c : Redis.Cache)
    (m : Redis.KafkaMessageC) :
    (Redis.processNonMarketMessage c m).1.strs = c.strs := by
  simp only [Redis.processNonMarketMessage]
  split
  · have hgen : ∀ (ps : List Grpc.PositionPayload) (c0 : Redis.Cache)
        (ops0 : List Redis.CacheOp),
        ((ps.foldl (fun acc p =>
          let r := Redis.processPosition acc.1 p m.block_height m.block_time
          (r.1, acc.2 ++ r.2)) (c0, ops0)).1).strs = c0.strs := by
      intro ps
      induction ps with
      | nil => intro c0 ops0; rfl
      | cons p rest ih =>
        intro c0 ops0
        calc ((List.foldl _ ((Redis.processPosition c0 p m.block_height m.block_time).1,
                ops0 ++ (Redis.processPosition c0 p m.block_height m.block_time).2)
                rest).1).strs
            = (Redis.processPosition c0 p m.block_height m.block_time).1.strs := ih _ _
          _ = c0.strs := Redis.processPosition_strs c0 p m.block_height m.block_time
    exact hgen _ c []
  · split <;> rfl

/-- Helper: draining the deferred queue mutates no plain-string key. -/
theorem Redis.processQueuedMessages_strs (q : List Redis.KafkaMessageC) :
    ∀ c : Redis.Cache, (Redis.processQueuedMessages c q).1.strs = c.strs := by
  induction q with
  | nil => intro c; rfl
  | cons m rest ih =>
    intro c
    calc (Redis.processQueuedMessages (Redis.processNonMarketMessage c m).1 rest).1.strs
        = (Redis.processNonMarketMessage c m).1.strs := ih _
      _ = c.strs := Redis.processNonMarketMessage_strs c m

/-- Helper: the per-position recomputation mutates no plain-string key. -/
theorem Redis.recalcPosition_strs (c : Redis.Cache) (mid sub : String)
    (mmr cf mk : ℚ) :
    (Redis.recalcPosition c mid sub mmr cf mk).1.strs = c.strs := by
  simp only [Redis.recalcPosition]
  split
  · rfl
  · split
    · rfl
    · split
      · rfl
      · split
        · rfl
        · split
          · rfl
          · apply Redis.applyOps_strs
            intro op hop k v
            simp only [List.mem_append, List.mem_cons, List.not_mem_nil,
              or_false] at hop
            rcases hop with (rfl | rfl) | hop
            · simp
            · simp
            · split at hop <;>
                · simp only [List.mem_cons, List.not_mem_nil, or_false] at hop
                  rcases hop with rfl | rfl <;> simp

/-- Helper: the recomputation loop mutates no plain-string key. -/
theorem Redis.recalcLoop_strs (subs : List String) :
    ∀ (c : Redis.Cache) (mid : String) (mmr cf mk : ℚ),
      (Redis.recalcLoop c mid mmr cf mk subs).1.strs = c.strs := by
  induction subs with
  | nil => intro c mid mmr cf mk; rfl
  | cons sub rest ih =>
    intro c mid mmr cf mk
    calc (Redis.recalcLoop (Redis.recalcPosition c mid sub mmr cf mk).1
            mid mmr cf mk rest).1.strs
        = (Redis.recalcPosition c mid sub mmr cf mk).1.strs := ih _ _ _ _ _
      _ = c.strs := Redis.recalcPosition_strs c mid sub mmr cf mk

/-- Helper: the market handler always removes the processed id from the
pending set, whatever else it does. -/
theorem Redis.processDerivativeMarket_market_ids (s : Redis.SinkState)
    (market : Redis.DerivativeMarketPayloadC) (bh bt : Nat) :
    (Redis.processDerivativeMarket s market bh bt).1.market_ids
      = s.market_ids.erase market.market_id := by
  simp only [Redis.processDerivativeMarket]
  split <;> rfl

/-- Helper: the batch loop erases the id of every processed market. -/
theorem Redis.marketsLoop_market_ids (markets : List Redis.DerivativeMarketPayloadC) :
    ∀ (s : Redis.SinkState) (bh bt : Nat),
      (Redis.marketsLoop s bh bt markets).1.market_ids
        = markets.foldl (fun ids m => ids.erase m.market_id) s.market_ids := by
  induction markets with
  | nil => intro s bh bt; rfl
  | cons m rest ih =>
    intro s bh bt
    calc (Redis.marketsLoop (Redis.processDerivativeMarket s m bh bt).1 bh bt rest).1.market_ids
        = rest.foldl (fun ids m => ids.erase m.market_id)
            (Redis.processDerivativeMarket s m bh bt).1.market_ids := ih _ bh bt
      _ = _ := by
          rw [Redis.processDerivativeMarket_market_ids]
          rfl

/-- Helper: membership after a set-style insert. -/
theorem Redis.mem_insertId (ids : List String) (id x : String)
    (h : x ∈ Redis.insertId ids id) : x ∈ ids ∨ x = id := by
  simp only [Redis.insertId] at h
  split at h
  · exact Or.inl h
  · rcases List.mem_append.mp h with h | h
    · exact Or.inl h
    · exact Or.inr (List.mem_singleton.mp h)

/-- Helper: a set-style insert keeps the list duplicate free. -/
theorem Redis.nodup_insertId (ids : List String) (id : String)
    (h : ids.Nodup) : (Redis.insertId ids id).Nodup := by
  simp only [Redis.insertId]
  split
  · exact h
  · next hc =>
    have : id ∉ ids := by
      intro hmem
      exact absurd (List.elem_eq_true_of_mem hmem) (by simpa using hc)
    simp [List.nodup_append, h, this]

/-- Helper: the pending registration yields ids of the batch (or ids
already pending). -/
theorem Redis.mem_registerMarkets (markets : List Redis.DerivativeMarketPayloadC) :
    ∀ (ids : List String) (x : String), x ∈ Redis.registerMarkets ids markets →
      x ∈ ids ∨ x ∈ markets.map (fun m => m.market_id) := by
  induction markets with
  | nil => intro ids x h; exact Or.inl h
  | cons m rest ih =>
    intro ids x h
    rcases ih (Redis.insertId ids m.market_id) x h with h2 | h2
    · rcases Redis.mem_insertId ids m.market_id x h2 with h3 | h3
      · exact Or.inl h3
      · exact Or.inr (by simp [h3])
    · refine Or.inr ?_
      simp only [List.map_cons, List.mem_cons]
      exact Or.inr (by simpa using h2)

/-- Helper: the pending registration is duplicate free. -/
theorem Redis.nodup_registerMarkets (markets : List Redis.DerivativeMarketPayloadC) :
    ∀ ids : List String, ids.Nodup → (Redis.registerMarkets ids markets).Nodup := by
  induction markets with
  | nil => intro ids h; exact h
  | cons m rest ih =>
    intro ids h
    exact ih (Redis.insertId ids m.market_id) (Redis.nodup_insertId ids m.market_id h)

/-- Helper: erasing every id of a batch from a duplicate-free pending set
drawn from that batch empties it. -/
theorem Redis.foldl_erase_nil (markets : List Redis.DerivativeMarketPayloadC) :
    ∀ p : List String, p.Nodup →
      (∀ x ∈ p, x ∈ markets.map (fun m => m.market_id)) →
      markets.foldl (fun ids m => ids.erase m.market_id) p = [] := by
  induction markets with
  | nil =>
    intro p _ hsub
    cases p with
    | nil => rfl
    | cons x rest => exact absurd (hsub x (List.mem_cons_self x rest)) (by simp)
  | cons m rest ih =>
    intro p hnd hsub
    simp only [List.foldl_cons]
    apply ih (p.erase m.market_id) (hnd.erase m.market_id)
    intro x hx
    have hx2 := (List.Nodup.mem_erase_iff hnd).mp hx
    rcases hsub x hx2.2 with h3
    simp only [List.map_cons, List.mem_cons] at h3
    rcases h3 with h3 | h3
    · exact absurd h3 hx2.1
    · simpa using h3

/-- Helper: the whole recomputation entry point mutates no plain-string
key. -/
theorem Redis.positionRecalcLoop_strs (c : Redis.Cache) (mid : String)
    (mmr cf mk : ℚ) :
    (Redis.positionRecalcLoop c mid mmr cf mk).1.strs = c.strs :=
  Redis.recalcLoop_strs _ c mid mmr cf mk

/-- Helper: plain-string reads only depend on the plain-string table. -/
theorem Redis.strsGet_congr (c1 c2 : Redis.Cache) (h : c1.strs = c2.strs)
    (k : String) : Redis.strsGet c1 k = Redis.strsGet c2 k := by
  simp [Redis.strsGet, h]

/-- Helper: the phase after one market is Others exactly when the pending
set emptied (and otherwise unchanged). -/
theorem Redis.processDerivativeMarket_phase (s : Redis.SinkState)
    (market : Redis.DerivativeMarketPayloadC) (bh bt : Nat) :
    (Redis.processDerivativeMarket s market bh bt).1.phase
      = if (s.market_ids.erase market.market_id).isEmpty
          then Redis.ProcessingPhase.others else s.phase := by
  simp only [Redis.processDerivativeMarket]
  split
  · next h => simp [h]
  · next h => simp [h]

/-- Helper: the deferred queue after one market is empty on the
transition and otherwise unchanged. -/
theorem Redis.processDerivativeMarket_deferred (s : Redis.SinkState)
    (market : Redis.DerivativeMarketPayloadC) (bh bt : Nat) :
    (Redis.processDerivativeMarket s market bh bt).1.deferred_messages
      = if (s.market_ids.erase market.market_id).isEmpty
          then [] else s.deferred_messages := by
  simp only [Redis.processDerivativeMarket]
  split
  · next h => simp [h]
  · next h => simp [h]

/-- Helper: the market-record operations issued by the market handler
contain no plain-string write. -/
theorem Redis.marketOps_no_setStr (market : Redis.DerivativeMarketPayloadC)
    (bh bt : Nat) :
    ∀ op ∈ [Redis.CacheOp.hset ("market:derivative:" ++ market.market_id) "ticker"
            (Redis.Val.s market.ticker),
           Redis.CacheOp.hset ("market:derivative:" ++ market.market_id) "mark_price"
            (Redis.Val.s market.mark_price),
           Redis.CacheOp.hset ("market:derivative:" ++ market.market_id)
            "maintenance_margin_ratio" (Redis.Val.s market.maintenance_margin_ratio),
           Redis.CacheOp.hset ("market:derivative:" ++ market.market_id)
            "cumulative_funding"
            (Redis.Val.q ((Redis.parseDec market.cumulative_funding).getD 0)),
           Redis.CacheOp.hset ("market:derivative:" ++ market.market_id) "block_height"
            (Redis.Val.n bh),
           Redis.CacheOp.hset ("market:derivative:" ++ market.market_id) "timestamp"
            (Redis.Val.n bt),
           Redis.CacheOp.hset ("market:derivative:" ++ market.market_id) "status"
            (Redis.Val.s market.status),
           Redis.CacheOp.sadd "markets:derivative" market.market_id],
      ∀ k v, op ≠ Redis.CacheOp.setStr k v := by
  intro op hop k v
  simp only [List.mem_cons, List.not_mem_nil, or_false] at hop
  rcases hop with rfl | rfl | rfl | rfl | rfl | rfl | rfl | rfl <;> simp

/-- Helper: one market preserves the Others-phase bookkeeping (empty
deferred queue, markets_ready persisted). -/
theorem Redis.processDerivativeMarket_ready (s : Redis.SinkState)
    (market : Redis.DerivativeMarketPayloadC) (bh bt : Nat)
    (h : s.phase = Redis.ProcessingPhase.others →
      s.deferred_messages = [] ∧
      Redis.strsGet s.cache "markets_ready" = some "true") :
    (Redis.processDerivativeMarket s market bh bt).1.phase
        = Redis.ProcessingPhase.others →
      (Redis.processDerivativeMarket s market bh bt).1.deferred_messages = [] ∧
      Redis.strsGet (Redis.processDerivativeMarket s market bh bt).1.cache
        "markets_ready" = some "true" := by
  by_cases hpend : (s.market_ids.erase market.market_id).isEmpty
  · intro _
    constructor
    · simp [Redis.processDerivativeMarket_deferred, hpend]
    · simp only [Redis.processDerivativeMarket, hpend, if_true]
      rw [Redis.strsGet_congr _ _ (Redis.positionRecalcLoop_strs _ _ _ _ _) _]
      rw [Redis.strsGet_congr _ _ (Redis.processQueuedMessages_strs _ _) _]
      simp [Redis.applyOp, Redis.setStrC, Redis.strsGet,
        Redis.assocGet_assocSet_same]
  · intro hph
    rw [Redis.processDerivativeMarket_phase] at hph
    rw [if_neg hpend] at hph
    obtain ⟨hd, hr⟩ := h hph
    constructor
    · simp [Redis.processDerivativeMarket_deferred, hpend, hd]
    · simp only [Redis.processDerivativeMarket, hpend, if_false,
        Bool.false_eq_true]
      rw [Redis.strsGet_congr _ _ (Redis.positionRecalcLoop_strs _ _ _ _ _) _]
      rw [Redis.strsGet_congr _ _
        (Redis.applyOps_strs _ s.cache (Redis.marketOps_no_setStr market bh bt)) _]
      exact hr

/-- Helper: the phase never leaves Others during a market batch. -/
theorem Redis.marketsLoop_phase_mono (markets : List Redis.DerivativeMarketPayloadC) :
    ∀ (s : Redis.SinkState) (bh bt : Nat),
      s.phase = Redis.ProcessingPhase.others →
      (Redis.marketsLoop s bh bt markets).1.phase
        = Redis.ProcessingPhase.others := by
  induction markets with
  | nil => intro s bh bt h; exact h
  | cons m rest ih =>
    intro s bh bt h
    apply ih
    rw [Redis.processDerivativeMarket_phase]
    split
    · rfl
    · exact h

/-- Helper: a market batch preserves the Others-phase bookkeeping. -/
theorem Redis.marketsLoop_ready (markets : List Redis.DerivativeMarketPayloadC) :
    ∀ (s : Redis.SinkState) (bh bt : Nat),
      (s.phase = Redis.ProcessingPhase.others →
        s.deferred_messages = [] ∧
        Redis.strsGet s.cache "markets_ready" = some "true") →
      ((Redis.marketsLoop s bh bt markets).1.phase
          = Redis.ProcessingPhase.others →
        (Redis.marketsLoop s bh bt markets).1.deferred_messages = [] ∧
        Redis.strsGet (Redis.marketsLoop s bh bt markets).1.cache
          "markets_ready" = some "true") := by
  induction markets with
  | nil => intro s bh bt h; exact h
  | cons m rest ih =>
    intro s bh bt h
    exact ih _ bh bt (Redis.processDerivativeMarket_ready s m bh bt h)

/-- Helper: a nonempty batch whose processing empties the pending set
ends in the Others phase. -/
theorem Redis.marketsLoop_transition (markets : List Redis.DerivativeMarketPayloadC) :
    ∀ (s : Redis.SinkState) (bh bt : Nat), markets ≠ [] →
      (Redis.marketsLoop s bh bt markets).1.market_ids = [] →
      (Redis.marketsLoop s bh bt markets).1.phase
        = Redis.ProcessingPhase.others := by
  induction markets with
  | nil => intro s bh bt h; exact absurd rfl h
  | cons m rest ih =>
    intro s bh bt _ hids
    cases hr : rest with
    | nil =>
      subst hr
      have hlast : (Redis.marketsLoop s bh bt [m]).1
          = (Redis.processDerivativeMarket s m bh bt).1 := rfl
      rw [hlast] at hids ⊢
      rw [Redis.processDerivativeMarket_market_ids] at hids
      rw [Redis.processDerivativeMarket_phase, hids]
      rfl
    | cons m2 rest2 =>
      subst hr
      have hstep : (Redis.marketsLoop s bh bt (m :: m2 :: rest2)).1
          = (Redis.marketsLoop (Redis.processDerivativeMarket s m bh bt).1
              bh bt (m2 :: rest2)).1 := rfl
      rw [hstep] at hids ⊢
      exact ih _ bh bt (by simp) hids

/-- Helper: one consumed envelope preserves the phase-machine invariant,
and the phase is Others afterwards exactly when it already was or the
envelope was a nonempty market batch. -/
theorem Redis.processMessage_inv9 (s : Redis.SinkState) (m : Redis.KafkaMessageC)
    (h : Redis.Inv9 s) :
    Redis.Inv9 (Redis.processMessage s m).1 ∧
    ((Redis.processMessage s m).1.phase = Redis.ProcessingPhase.others ↔
      (s.phase = Redis.ProcessingPhase.others ∨ Redis.isMarketBatch m = true)) := by
  obtain ⟨hids, hready⟩ := h
  by_cases ht : m.message_type = Grpc.MessageType.DerivativeMarket
  · cases hpl : m.payload with
    | DerivativeMarkets markets =>
      have hres : Redis.processMessage s m
          = Redis.marketsLoop
              ⟨s.phase, s.deferred_messages,
               Redis.registerMarkets s.market_ids markets, s.cache⟩
              m.block_height m.block_time markets := by
        simp [Redis.processMessage, ht, hpl]
      have hbatch : Redis.isMarketBatch m = (!markets.isEmpty) := by
        simp [Redis.isMarketBatch, ht, hpl]
      have hfin : (Redis.processMessage s m).1.market_ids = [] := by
        rw [hres, Redis.marketsLoop_market_ids]
        apply Redis.foldl_erase_nil
        · exact Redis.nodup_registerMarkets markets s.market_ids
            (by rw [hids]; exact List.nodup_nil)
        · intro x hx
          rcases Redis.mem_registerMarkets markets s.market_ids x hx with h2 | h2
          · rw [hids] at h2
            exact absurd h2 (List.not_mem_nil x)
          · exact h2
      refine ⟨⟨hfin, ?_⟩, ?_⟩
      · rw [hres]
        exact Redis.marketsLoop_ready markets _ _ _ hready
      · cases hmks : markets.isEmpty
        · constructor
          · intro _
            right
            rw [hbatch, hmks]
            rfl
          · intro _
            have hne : markets ≠ [] := by
              intro h2
              rw [h2] at hmks
              simp at hmks
            have hfin2 : (Redis.marketsLoop
                ⟨s.phase, s.deferred_messages,
                 Redis.registerMarkets s.market_ids markets, s.cache⟩
                m.block_height m.block_time markets).1.market_ids = [] := by
              rw [← hres]
              exact hfin
            rw [hres]
            exact Redis.marketsLoop_transition markets _ m.block_height
              m.block_time hne hfin2
        · have hmkse : markets = [] := List.isEmpty_iff.mp hmks
          subst hmkse
          rw [hres]
          have : (Redis.marketsLoop
              ⟨s.phase, s.deferred_messages,
               Redis.registerMarkets s.market_ids [], s.cache⟩
              m.block_height m.block_time []).1.phase = s.phase := rfl
          rw [this, hbatch, hmks]
          simp
    | ExchangePositions v =>
      have hres : Redis.processMessage s m = (s, []) := by
        simp [Redis.processMessage, ht, hpl]
      rw [hres]
      exact ⟨⟨hids, hready⟩, by simp [Redis.isMarketBatch, ht, hpl]⟩
    | StreamPositions v =>
      have hres : Redis.processMessage s m = (s, []) := by
        simp [Redis.processMessage, ht, hpl]
      rw [hres]
      exact ⟨⟨hids, hready⟩, by simp [Redis.isMarketBatch, ht, hpl]⟩
    | DerivativeTrades v =>
      have hres : Redis.processMessage s m = (s, []) := by
        simp [Redis.processMessage, ht, hpl]
      rw [hres]
      exact ⟨⟨hids, hready⟩, by simp [Redis.isMarketBatch, ht, hpl]⟩
    | StreamDerivativeOrderbooks v =>
      have hres : Redis.processMessage s m = (s, []) := by
        simp [Redis.processMessage, ht, hpl]
      rw [hres]
      exact ⟨⟨hids, hready⟩, by simp [Redis.isMarketBatch, ht, hpl]⟩
    | otherPayload =>
      have hres : Redis.processMessage s m = (s, []) := by
        simp [Redis.processMessage, ht, hpl]
      rw [hres]
      exact ⟨⟨hids, hready⟩, by simp [Redis.isMarketBatch, ht, hpl]⟩
  · have hbatch : Redis.isMarketBatch m = false := by
      simp only [Redis.isMarketBatch]
      cases hmt : m.message_type <;> simp_all
    cases hph : s.phase with
    | markets =>
      have hres : Redis.processMessage s m
          = (⟨s.phase, s.deferred_messages ++ [m], s.market_ids, s.cache⟩, []) := by
        simp [Redis.processMessage, ht, hph]
      rw [hres]
      refine ⟨⟨hids, ?_⟩, ?_⟩
      · intro h2
        simp only at h2
        rw [hph] at h2
        exact absurd h2 (by simp)
      · simp [hph, hbatch]
    | others =>
      have hres : Redis.processMessage s m
          = (⟨s.phase, s.deferred_messages, s.market_ids,
              (Redis.processNonMarketMessage s.cache m).1⟩,
             (Redis.processNonMarketMessage s.cache m).2.map
               (fun op => (s.phase, op))) := by
        simp [Redis.processMessage, ht, hph]
      rw [hres]
      obtain ⟨hd, hr⟩ := hready hph
      refine ⟨⟨hids, ?_⟩, ?_⟩
      · intro _
        refine ⟨hd, ?_⟩
        simp only
        rw [Redis.strsGet_congr _ _ (Redis.processNonMarketMessage_strs s.cache m) _]
        exact hr
      · simp [hph]

/-- Helper: a trajectory preserves the phase-machine invariant, and ends
in the Others phase exactly when it started there or consumed a nonempty
market batch. -/
theorem Redis.runMessages_inv9 (msgs : List Redis.KafkaMessageC) :
    ∀ s : Redis.SinkState, Redis.Inv9 s →
      Redis.Inv9 (Redis.runMessages s msgs).1 ∧
      ((Redis.runMessages s msgs).1.phase = Redis.ProcessingPhase.others ↔
        (s.phase = Redis.ProcessingPhase.others ∨
         ∃ m ∈ msgs, Redis.isMarketBatch m = true)) := by
  induction msgs with
  | nil =>
    intro s h
    exact ⟨h, by simp [Redis.runMessages]⟩
  | cons m rest ih =>
    intro s h
    obtain ⟨h1, iff1⟩ := Redis.processMessage_inv9 s m h
    obtain ⟨h2, iff2⟩ := ih (Redis.processMessage s m).1 h1
    have hrun : (Redis.runMessages s (m :: rest)).1
        = (Redis.runMessages (Redis.processMessage s m).1 rest).1 := rfl
    refine ⟨by rw [hrun]; exact h2, ?_⟩
    rw [hrun, iff2, iff1]
    constructor
    · intro hc
      rcases hc with (hc | hc) | ⟨x, hx, hb⟩
      · exact Or.inl hc
      · exact Or.inr ⟨m, List.mem_cons_self m rest, hc⟩
      · exact Or.inr ⟨x, List.mem_cons_of_mem m hx, hb⟩
    · intro hc
      rcases hc with hc | ⟨x, hx, hb⟩
      · exact Or.inl (Or.inl hc)
      · rcases List.mem_cons.mp hx with rfl | hx2
        · exact Or.inl (Or.inr hb)
        · exact Or.inr ⟨x, hx2, hb⟩

/-- C9: on any trajectory of the cache sink from a fresh start, the phase
is Others exactly when some nonempty DerivativeMarket batch has been
consumed (the pending set empties at the end of the first such batch, the
only moment the one-way transition can fire); whenever the phase is
Others the deferred queue is empty (it was drained at the transition and
nothing is deferred afterwards) and markets_ready is persisted as the
string true; and the transition is permanent: once a prefix reaches
Others the whole trajectory ends in Others. -/
theorem C9_markets_to_others_transition (msgs : List Redis.KafkaMessageC) :
    ((Redis.runMessages Redis.initState msgs).1.phase
        = Redis.ProcessingPhase.others ↔
      ∃ m ∈ msgs, Redis.isMarketBatch m = true) ∧
    ((Redis.runMessages Redis.initState msgs).1.phase
        = Redis.ProcessingPhase.others →
      (Redis.runMessages Redis.initState msgs).1.deferred_messages = [] ∧
      Redis.strsGet (Redis.runMessages Redis.initState msgs).1.cache
        "markets_ready" = some "true") ∧
    (∀ pre suf, msgs = pre ++ suf →
      (Redis.runMessages Redis.initState pre).1.phase
        = Redis.ProcessingPhase.others →
      (Redis.runMessages Redis.initState msgs).1.phase
        = Redis.ProcessingPhase.others) := by
  have hInit : Redis.Inv9 Redis.initState := by
    refine ⟨rfl, ?_⟩
    intro h
    simp [Redis.initState] at h
  obtain ⟨hinv, hiff⟩ := Redis.runMessages_inv9 msgs Redis.initState hInit
  have hiff2 : (Redis.runMessages Redis.initState msgs).1.phase
      = Redis.ProcessingPhase.others ↔
      ∃ m ∈ msgs, Redis.isMarketBatch m = true := by
    rw [hiff]
    constructor
    · intro hc
      rcases hc with hc | hc
      · simp [Redis.initState] at hc
      · exact hc
    · exact Or.inr
  refine ⟨hiff2, hinv.2, ?_⟩
  intro pre suf heq hpre
  obtain ⟨_, hiffp⟩ := Redis.runMessages_inv9 pre Redis.initState hInit
  rcases hiffp.mp hpre with hc | ⟨x, hx, hb⟩
  · simp [Redis.initState] at hc
  · exact hiff2.mpr ⟨x, by rw [heq]; exact List.mem_append.mpr (Or.inl hx), hb⟩

/-- Witness for C9 at a concrete trajectory: after one nonempty market
batch the phase is Others, the deferred queue is empty, and markets_ready
is persisted. -/
theorem C9_markets_to_others_transition_witness :
    (Redis.runMessages Redis.initState [Redis.sampleMarketMsg]).1.phase
      = Redis.ProcessingPhase.others ∧
    (Redis.runMessages Redis.initState [Redis.sampleMarketMsg]).1.deferred_messages
      = [] ∧
    Redis.strsGet (Redis.runMessages Redis.initState
      [Redis.sampleMarketMsg]).1.cache "markets_ready" = some "true" := by
  have h := C9_markets_to_others_transition [Redis.sampleMarketMsg]
  have hph := h.1.mpr ⟨Redis.sampleMarketMsg, by simp, by decide⟩
  exact ⟨hph, (h.2.1 hph).1, (h.2.1 hph).2⟩
